import Mathlib

/-!
Verification of the ha-lean-cluster node-provisioning and cluster-administration
core against its specification.

Strings are modelled as lists of characters (`Str`), so that the substring,
split and trim operations used by the TypeScript sources become decidable list
operations.  Asynchronous TypeScript code is embedded as explicit state
passing: a provisioner action is a function from the Contabo directory state to
a result (`Except` for thrown errors) together with the successor state, which
matches the JavaScript semantics in which side effects performed before a
`throw` persist.  Real time (timeouts, polling intervals) is abstracted by
boolean oracles.
-/

namespace HaLean

/-- Strings are modelled as lists of characters. -/
abbrev Str := List Char

/-- Model of JavaScript `s.includes(sub)`: substring (infix) test. -/
def strIncludes (s sub : Str) : Bool := decide (sub <:+: s)

/-- Whitespace predicate used by the model of JavaScript `String.trim`. -/
def isWsChar (c : Char) : Bool := c = ' ' || c = '\t' || c = '\n' || c = '\r'

/-- Model of JavaScript `String.trim`. -/
def trimStr (s : Str) : Str :=
  ((s.dropWhile isWsChar).reverse.dropWhile isWsChar).reverse

/-- Model of JavaScript `s.split(sep)` for a one-character separator. -/
def splitChar (sep : Char) : Str → List Str
  | [] => [[]]
  | c :: cs =>
    match splitChar sep cs with
    | [] => [[c]]
    | r :: rs => if c = sep then [] :: r :: rs else (c :: r) :: rs

/-- Decimal digit characters, used to model JavaScript number-to-string
conversion. -/
def digitChar : Nat → Char
  | 0 => '0' | 1 => '1' | 2 => '2' | 3 => '3' | 4 => '4'
  | 5 => '5' | 6 => '6' | 7 => '7' | 8 => '8' | _ => '9'

/-- Fuel-driven core of the decimal representation (`fuel` bounds the number of
digits produced; `natRepr` always supplies enough fuel). -/
def natReprCore : Nat → Nat → Str → Str
  | 0, _, acc => acc
  | fuel + 1, n, acc =>
    if n < 10 then digitChar (n % 10) :: acc
    else natReprCore fuel (n / 10) (digitChar (n % 10) :: acc)

/-- Model of JavaScript `String(n)` for a natural number. -/
def natRepr (n : Nat) : Str := natReprCore (n + 1) n []

/-- Numeric value of a decimal digit character, `none` for non-digits. -/
def digitVal (c : Char) : Option Nat :=
  if 48 ≤ c.toNat ∧ c.toNat ≤ 57 then some (c.toNat - 48) else none

/-- Accumulating parse of a maximal run of leading decimal digits. -/
def parseDigits (acc : Nat) : Str → Nat
  | [] => acc
  | c :: cs =>
    match digitVal c with
    | some d => parseDigits (acc * 10 + d) cs
    | none => acc

/-- Model of JavaScript `parseInt` on a string: `none` models `NaN` (no leading
digit); otherwise the value of the maximal leading digit run. -/
def parseIntJS : Str → Option Nat
  | [] => none
  | c :: cs =>
    match digitVal c with
    | some d => some (parseDigits d cs)
    | none => none

theorem digitVal_digitChar {d : Nat} (h : d < 10) :
    digitVal (digitChar d) = some d := by
  interval_cases d <;> decide

theorem digitChar_eq_nine {d : Nat} (h : 9 ≤ d) : digitChar d = '9' := by
  rcases d with _|_|_|_|_|_|_|_|_|d
  all_goals first | omega | rfl

theorem digitChar_isDigit (d : Nat) : (digitVal (digitChar d)).isSome = true := by
  by_cases h : d < 10
  · rw [digitVal_digitChar h]; rfl
  · rw [digitChar_eq_nine (by omega)]; decide

theorem digitChar_ne_eq (d : Nat) : digitChar d ≠ '=' := by
  by_cases h : d < 10
  · interval_cases d <;> decide
  · rw [digitChar_eq_nine (by omega)]; decide

theorem digitChar_ne_space (d : Nat) : digitChar d ≠ ' ' := by
  by_cases h : d < 10
  · interval_cases d <;> decide
  · rw [digitChar_eq_nine (by omega)]; decide

/-- Every character produced by `natReprCore` is a character of the
accumulator or a decimal digit character. -/
theorem natReprCore_chars (fuel n : Nat) (acc : Str) :
    ∀ c ∈ natReprCore fuel n acc, c ∈ acc ∨ ∃ d, c = digitChar d := by
  induction fuel generalizing n acc with
  | zero => intro c hc; exact Or.inl hc
  | succ fuel ih =>
    intro c hc
    unfold natReprCore at hc
    split at hc
    · rcases List.mem_cons.mp hc with h | h
      · exact Or.inr ⟨n % 10, h⟩
      · exact Or.inl h
    · rcases ih (n / 10) (digitChar (n % 10) :: acc) c hc with h | h
      · rcases List.mem_cons.mp h with h' | h'
        · exact Or.inr ⟨n % 10, h'⟩
        · exact Or.inl h'
      · exact Or.inr h

/-- The decimal representation of a natural number contains no `=`. -/
theorem natRepr_no_eq (n : Nat) : '=' ∉ natRepr n := by
  intro hmem
  rcases natReprCore_chars (n + 1) n [] '=' hmem with h | ⟨d, h⟩
  · exact absurd h (List.not_mem_nil '=')
  · exact digitChar_ne_eq d h.symm

/-- The decimal representation of a natural number contains no space. -/
theorem natRepr_no_space (n : Nat) : ' ' ∉ natRepr n := by
  intro hmem
  rcases natReprCore_chars (n + 1) n [] ' ' hmem with h | ⟨d, h⟩
  · exact absurd h (List.not_mem_nil ' ')
  · exact digitChar_ne_space d h.symm

/-- Appending to the accumulator commutes with `natReprCore`. -/
theorem natReprCore_acc (fuel n : Nat) (acc : Str) :
    natReprCore fuel n acc = natReprCore fuel n [] ++ acc := by
  induction fuel generalizing n acc with
  | zero => simp [natReprCore]
  | succ fuel ih =>
    unfold natReprCore
    split
    · simp
    · rw [ih (n / 10) (digitChar (n % 10) :: acc),
        ih (n / 10) [digitChar (n % 10)]]
      simp

theorem parseDigits_append_all_digits (xs ys : Str) :
    ∀ acc, (∀ c ∈ xs, (digitVal c).isSome = true) →
      parseDigits acc (xs ++ ys) = parseDigits (parseDigits acc xs) ys := by
  induction xs with
  | nil => intro acc _; simp [parseDigits]
  | cons c cs ih =>
    intro acc hx
    have hc : (digitVal c).isSome = true := hx c (List.mem_cons_self c cs)
    rcases Option.isSome_iff_exists.mp hc with ⟨d, hd⟩
    simp only [List.cons_append, parseDigits, hd]
    exact ih (acc * 10 + d) (fun c' hc' => hx c' (List.mem_cons_of_mem c hc'))

theorem natReprCore_all_digits (fuel n : Nat) :
    ∀ c ∈ natReprCore fuel n [], (digitVal c).isSome = true := by
  intro c hc
  rcases natReprCore_chars fuel n [] c hc with h | ⟨d, h⟩
  · exact absurd h (List.not_mem_nil c)
  · rw [h]; exact digitChar_isDigit d

/-- Parsing the digit run produced by `natReprCore` with sufficient fuel
recovers the number. -/
theorem parseDigits_natReprCore (n : Nat) :
    ∀ fuel, n < fuel → ∀ acc : Nat,
      parseDigits acc (natReprCore fuel n []) = acc * 10 ^ (natReprCore fuel n []).length + n := by
  induction n using Nat.strong_induction_on with
  | _ n ih =>
    intro fuel hfuel acc
    match fuel with
    | fuel + 1 =>
      by_cases h10 : n < 10
      · simp only [natReprCore, if_pos h10, parseDigits, digitVal_digitChar (Nat.mod_lt n (by norm_num)), List.length_cons,
          List.length_nil]
        rw [Nat.mod_eq_of_lt h10]
        simp [parseDigits]
      · have hrec : n / 10 < n := Nat.div_lt_self (by omega) (by norm_num)
        have hfuel' : n / 10 < fuel := by omega
        simp only [natReprCore, if_neg h10]
        rw [natReprCore_acc fuel (n / 10) [digitChar (n % 10)]]
        rw [parseDigits_append_all_digits _ _ acc (natReprCore_all_digits fuel (n / 10))]
        rw [ih (n / 10) hrec fuel hfuel' acc]
        simp only [parseDigits, digitVal_digitChar (Nat.mod_lt n (by omega)), List.length_append,
          List.length_cons, List.length_nil]
        calc (acc * 10 ^ (natReprCore fuel (n / 10) []).length + n / 10) * 10 + n % 10
            = acc * 10 ^ ((natReprCore fuel (n / 10) []).length + (0 + 1)) + (10 * (n / 10) + n % 10) := by
              rw [Nat.pow_succ]; ring_nf
          _ = acc * 10 ^ ((natReprCore fuel (n / 10) []).length + (0 + 1)) + n := by
              rw [Nat.div_add_mod]

/-- Round trip: JavaScript `parseInt(String(n))` recovers `n`. -/
theorem parseIntJS_natRepr (n : Nat) : parseIntJS (natRepr n) = some n := by
  unfold natRepr
  have hne : natReprCore (n + 1) n [] ≠ [] := by
    unfold natReprCore
    split <;> · intro h
                first
                | exact absurd h (List.cons_ne_nil _ _)
                | (rw [natReprCore_acc] at h; exact absurd h (by simp))
  match hl : natReprCore (n + 1) n [] with
  | [] => exact absurd hl hne
  | c :: cs =>
    have hcdig : (digitVal c).isSome = true :=
      natReprCore_all_digits (n + 1) n c (by rw [hl]; exact List.mem_cons_self c cs)
    rcases Option.isSome_iff_exists.mp hcdig with ⟨d, hd⟩
    have hparse := parseDigits_natReprCore n (n + 1) (Nat.lt_succ_self n) 0
    rw [hl] at hparse
    simp only [parseDigits, hd] at hparse
    simp only [parseIntJS, hd]
    simp only [Nat.zero_mul, Nat.zero_add] at hparse
    exact congrArg some hparse

/-- `natRepr` is injective: distinct instance ids have distinct node ids. -/
theorem natRepr_injective {a b : Nat} (h : natRepr a = natRepr b) : a = b := by
  have ha := parseIntJS_natRepr a
  have hb := parseIntJS_natRepr b
  rw [h, hb] at ha
  exact (Option.some_injective Nat ha).symm

/-! ## Etcd health parsing

Embeds the output-parsing portion of
`AbstractKubernetesAdministrator.checkEtcdHealth`
(src/core/kubernetes_administrator/abstract.ts lines 389-411); the three raw
outputs arrive over SSH from etcdctl, which is external to this core, so the
parser takes them as arguments. -/

/-- Result record of an etcd health check (`EtcdHealthStatus` in the source;
the three raw outputs are carried unmodified). -/
structure EtcdHealthStatus where
  healthy : Bool
  healthyEndpoints : Nat
  totalEndpoints : Nat
  members : Nat
  hasAlarms : Bool
  healthOutput : Str
  membersOutput : Str
  alarmsOutput : Str
deriving DecidableEq, Repr

/-- Non-empty lines of the `endpoint health` output: split on newline, drop
lines that trim to the empty string. -/
def healthLinesOf (healthOutput : Str) : List Str :=
  (splitChar '\n' healthOutput).filter (fun line => trimStr line ≠ [])

/-- Parsing body of `checkEtcdHealth`: line-based analysis of the three
etcdctl outputs (`endpoint health`, `member list`, `alarm list`). -/
def checkEtcdHealth (healthOutput membersOutput alarmsOutput : Str) : EtcdHealthStatus :=
  let healthLines := healthLinesOf healthOutput
  let allHealthy := healthLines.all (fun line => strIncludes line ("is healthy".data))
  let healthyCount := (healthLines.filter (fun line => strIncludes line ("is healthy".data))).length
  let memberLines := (splitChar '\n' membersOutput).filter (fun line => strIncludes line ("started".data))
  let hasAlarms := trimStr alarmsOutput ≠ [] && !(strIncludes alarmsOutput ("memberID:0 alarm:NONE".data))
  { healthy := allHealthy
    healthyEndpoints := healthyCount
    totalEndpoints := healthLines.length
    members := memberLines.length
    hasAlarms := hasAlarms
    healthOutput := healthOutput
    membersOutput := membersOutput
    alarmsOutput := alarmsOutput }

/-! ## Bounded retry (`retry` and `executeSSH` in src/core/utils.ts)

The retry loop's wall-clock timeout check is abstracted by a boolean oracle
`timedOut` (whether, after the k-th failed attempt, the elapsed time exceeded
the budget); the theorems hold for every oracle.  `f k` is the outcome of the
k-th invocation of the wrapped function (the ssh child process), an external
effect. -/

/-- Core of `retry` (src/core/utils.ts lines 437-458): invoke `f`, return on
success, re-invoke while neither the retry budget (`fuel`, initially
`maxRetries`) nor the time budget is exhausted, rethrowing the last error
otherwise.  Returns the result together with the total number of invocations
performed (`k` counts the invocations already made). -/
def retryCore (f : Nat → Except Str α) (timedOut : Nat → Bool) : Nat → Nat → Except Str α × Nat
  | fuel, k =>
    match f k with
    | .ok v => (.ok v, k + 1)
    | .error e =>
      match fuel with
      | 0 => (.error e, k + 1)
      | fuel + 1 =>
        if timedOut k then (.error e, k + 1)
        else retryCore f timedOut fuel (k + 1)

/-- Model of `retry({fn, maxRetries, ...})`. -/
def retry (f : Nat → Except Str α) (timedOut : Nat → Bool) (maxRetries : Nat) :
    Except Str α × Nat :=
  retryCore f timedOut maxRetries 0

/-- Error message wrapper applied by `executeSSH`'s catch block. -/
def sshWrapError (e : Str) : Str := ("Failed to execute command: ".data) ++ e

/-- Model of `executeSSH(host, command, input, {retries, timeout})`
(src/core/utils.ts lines 292-347): run the ssh invocation through `retry` with
`maxRetries = options.retries ?? 0`, wrapping a final error.  `retries` is the
`options.retries` value; `f k` is the outcome of the k-th ssh invocation. -/
def executeSSH (f : Nat → Except Str (Str × Str)) (timedOut : Nat → Bool)
    (retries : Nat) : Except Str (Str × Str) × Nat :=
  let r := retry f timedOut retries
  (match r.1 with
   | .ok v => .ok v
   | .error e => .error (sshWrapError e), r.2)

/-- Specification of `retryCore`: it performs invocations `k`, `k+1`, ...,
`m` for some `m ≤ k + fuel`, every invocation before the `m`-th failed, and
the returned value is exactly the outcome of the `m`-th invocation. -/
theorem retryCore_spec (f : Nat → Except Str α) (timedOut : Nat → Bool) :
    ∀ fuel k, ∃ m, k ≤ m ∧ m ≤ k + fuel ∧
      retryCore f timedOut fuel k = (f m, m + 1) ∧
      ∀ j, k ≤ j → j < m → ∃ e, f j = .error e := by
  intro fuel
  induction fuel with
  | zero =>
    intro k
    refine ⟨k, Nat.le_refl k, Nat.le_refl k, ?_, fun j hj hj' => absurd hj (by omega)⟩
    unfold retryCore
    cases hf : f k with
    | ok v => simp [hf]
    | error e => simp [hf]
  | succ fuel ih =>
    intro k
    cases hf : f k with
    | ok v =>
      refine ⟨k, Nat.le_refl k, by omega, ?_, fun j hj hj' => absurd hj (by omega)⟩
      unfold retryCore
      simp [hf]
    | error e =>
      by_cases ht : timedOut k = true
      · refine ⟨k, Nat.le_refl k, by omega, ?_, fun j hj hj' => absurd hj (by omega)⟩
        unfold retryCore
        simp [hf, ht]
      · rcases ih (k + 1) with ⟨m, hm1, hm2, hm3, hm4⟩
        refine ⟨m, by omega, by omega, ?_, ?_⟩
        · unfold retryCore
          simp only [hf, ht, if_false, Bool.false_eq_true]
          exact hm3
        · intro j hj hj'
          by_cases hjk : j = k
          · exact ⟨e, hjk ▸ hf⟩
          · exact hm4 j (by omega) hj'

/-- C8: for every endpoint-health output in which exactly 2 of 3 non-empty
lines contain the substring "is healthy", `checkEtcdHealth` reports
`healthy = false`, `healthyEndpoints = 2` and `totalEndpoints = 3`. -/
theorem claim_C8 (healthOutput membersOutput alarmsOutput : Str)
    (hlen : (healthLinesOf healthOutput).length = 3)
    (hcnt : ((healthLinesOf healthOutput).filter
      (fun line => strIncludes line ("is healthy".data))).length = 2) :
    (checkEtcdHealth healthOutput membersOutput alarmsOutput).healthy = false ∧
    (checkEtcdHealth healthOutput membersOutput alarmsOutput).healthyEndpoints = 2 ∧
    (checkEtcdHealth healthOutput membersOutput alarmsOutput).totalEndpoints = 3 := by
  refine ⟨?_, hcnt, hlen⟩
  unfold checkEtcdHealth
  simp only
  by_contra hall
  rw [Bool.not_eq_false] at hall
  have hfe : (healthLinesOf healthOutput).filter
      (fun line => strIncludes line ("is healthy".data)) = healthLinesOf healthOutput :=
    List.filter_eq_self.mpr (fun a ha => List.all_eq_true.mp hall a ha)
  rw [hfe, hlen] at hcnt
  exact absurd hcnt (by norm_num)

/-- Sample endpoint-health output: three non-empty lines, two of which
contain "is healthy". -/
def etcdSampleHealthOutput : Str :=
  ("endpoint 127.0.0.1:2379 is healthy: took 1ms\nendpoint 10.0.0.2:2379 is healthy: took 2ms\nendpoint 10.0.0.3:2379 is unreachable\n").data

theorem claim_C8_witness :
    (healthLinesOf etcdSampleHealthOutput).length = 3 ∧
    ((healthLinesOf etcdSampleHealthOutput).filter
      (fun line => strIncludes line ("is healthy".data))).length = 2 ∧
    (checkEtcdHealth etcdSampleHealthOutput [] []).healthy = false ∧
    (checkEtcdHealth etcdSampleHealthOutput [] []).healthyEndpoints = 2 ∧
    (checkEtcdHealth etcdSampleHealthOutput [] []).totalEndpoints = 3 := by
  refine ⟨by decide, by decide, ?_⟩
  exact claim_C8 etcdSampleHealthOutput [] [] (by decide) (by decide)

/-- C9 (divergence witness): on an empty endpoint-health output — which has no
non-empty lines — the parser does not treat the cluster as unhealthy: `every`
over zero lines is vacuously true, so `checkEtcdHealth` reports
`healthy = true` with 0 of 0 endpoints, contradicting the requirement that
empty/garbled output be treated as unknown/unhealthy. -/
theorem claim_C9_counterexample :
    (checkEtcdHealth [] [] []).healthy = true ∧
    (checkEtcdHealth [] [] []).healthyEndpoints = 0 ∧
    (checkEtcdHealth [] [] []).totalEndpoints = 0 := by
  decide

/-- C10: `executeSSH` with `retries = r` invokes the underlying ssh command at
least once and at most `r + 1` times; the returned outcome is the outcome of
the last invocation (success passed through, final error wrapped and
rethrown); every invocation before the last one failed; and if every
invocation fails then the result is the (wrapped) last error — it never
returns a result without one invocation having succeeded. -/
theorem claim_C10 (f : Nat → Except Str (Str × Str)) (timedOut : Nat → Bool) (r : Nat) :
    1 ≤ (executeSSH f timedOut r).2 ∧
    (executeSSH f timedOut r).2 ≤ r + 1 ∧
    (∀ v, f ((executeSSH f timedOut r).2 - 1) = .ok v →
      (executeSSH f timedOut r).1 = .ok v) ∧
    (∀ e, f ((executeSSH f timedOut r).2 - 1) = .error e →
      (executeSSH f timedOut r).1 = .error (sshWrapError e)) ∧
    (∀ j, j < (executeSSH f timedOut r).2 - 1 → ∃ e, f j = .error e) ∧
    ((∀ k, ∃ e, f k = .error e) →
      ∃ e, (executeSSH f timedOut r).1 = .error (sshWrapError e)) := by
  rcases retryCore_spec f timedOut r 0 with ⟨m, _, hm2, hm3, hm4⟩
  have hrun : executeSSH f timedOut r =
      (match f m with
       | .ok v => .ok v
       | .error e => .error (sshWrapError e), m + 1) := by
    unfold executeSSH retry
    rw [hm3]
  rw [hrun]
  simp only [Nat.add_sub_cancel]
  refine ⟨by omega, by omega, ?_, ?_, ?_, ?_⟩
  · intro v hv; simp [hv]
  · intro e he; simp [he]
  · intro j hj; exact hm4 j (Nat.zero_le j) hj
  · intro hall
    rcases hall m with ⟨e, he⟩
    exact ⟨e, by simp [he]⟩

/-! ## Contabo instance directory state

Data model of the external Instance Directory (spec section 6: instance,
secret and tag CRUD with paginated listings; the concrete
`cloud_providers/contabo.ts` binding is a thin CLI wrapper around it, so the
directory semantics below are modelled from the spec's interface description).
Fields irrelevant to all claims (region, MAC address, ...) are omitted;
`errorMessage` uses the empty string for the absent/falsy case. -/

structure ContaboInstance where
  instanceId : Nat
  displayName : Str
  productId : Str
  imageId : Str
  sshKeys : List Nat
  status : Str
  cancelDate : Str
  errorMessage : Str
  dataCenter : Str
  name : Str
  ipv4 : Str
deriving DecidableEq, Repr

structure ContaboTag where
  tagId : Nat
  name : Str
deriving DecidableEq, Repr

structure ContaboTagAssignment where
  tagId : Nat
  resourceType : Str
  resourceId : Str
deriving DecidableEq, Repr

structure ContaboSecret where
  secretId : Nat
  secretType : Str
  name : Str
  value : Str
deriving DecidableEq, Repr

/-- Payload of a `NodeProvisioningReportError` (abstract.ts lines 13-25):
which verification check failed and, for peer checks, the peer's IP. -/
structure CheckErrData where
  ctype : Str
  peerIp : Option Str
deriving DecidableEq, Repr

/-- Ghost trace of externally visible directory mutations and of the
verification outcomes inside `provisionNode` (instrumentation only: events
never influence control flow). -/
inductive Event where
  | setName (instanceId : Nat) (displayName : Str)
  | stopInst (instanceId : Nat)
  | startInst (instanceId : Nat)
  | reinstall (instanceId : Nat)
  | createInst (instanceId : Nat)
  | tagCreated (tagId : Nat)
  | tagDeleted (tagId : Nat)
  | asgCreated (tagId : Nat) (resourceId : Str)
  | asgDeleted (tagId : Nat) (resourceId : Str)
  | secretCreated (secretId : Nat)
  | sshRun (host command : Str)
  | checkPassed (instanceId : Nat)
  | checkFailed (instanceId : Nat) (err : CheckErrData)
deriving DecidableEq, Repr

/-- Complete state of the external instance directory, plus the ghost event
trace.  `nextId` supplies fresh numeric ids for created resources. -/
structure DirSt where
  instances : List ContaboInstance
  tags : List ContaboTag
  tagAssignments : List ContaboTagAssignment
  secrets : List ContaboSecret
  nextId : Nat
  events : List Event
deriving DecidableEq, Repr

/-- A thrown JavaScript `Error`, identified by its message. -/
inductive PErr where
  | msg (s : Str)
deriving DecidableEq, Repr

/-- A provisioner action: state in, thrown-error-or-value plus state out.
Effects performed before a throw persist, as in JavaScript. -/
def ProvM (α : Type) : Type := DirSt → Except PErr α × DirSt

instance : Monad ProvM where
  pure a := fun s => (.ok a, s)
  bind x f := fun s =>
    match x s with
    | (.ok a, s') => f a s'
    | (.error e, s') => (.error e, s')

/-- Model of `throw new Error(message)`. -/
def throwP (message : Str) : ProvM α := fun s => (.error (.msg message), s)

/-- Model of `try x catch (e) handler(e)`. -/
def tryCatchP (x : ProvM α) (handler : PErr → ProvM α) : ProvM α := fun s =>
  match x s with
  | (.ok a, s') => (.ok a, s')
  | (.error e, s') => handler e s'

/-- Model of `x.catch(console.warn)`: run, swallow any error. -/
def tryIgnore (x : ProvM α) : ProvM Unit :=
  tryCatchP (do let _ ← x; pure ()) (fun _ => pure ())

/-- Read the whole directory state (a pure snapshot). -/
def getDir : ProvM DirSt := fun s => (.ok s, s)

/-- Append a ghost event. -/
def logEvent (e : Event) : ProvM Unit := fun s =>
  (.ok (), { s with events := s.events ++ [e] })

theorem pure_apply (a : α) (s : DirSt) : (pure a : ProvM α) s = (.ok a, s) := rfl

theorem bind_apply (x : ProvM α) (f : α → ProvM β) (s : DirSt) :
    (x >>= f) s =
      match x s with
      | (.ok a, s') => f a s'
      | (.error e, s') => (.error e, s') := rfl

theorem bind_apply_ok {x : ProvM α} {s s' : DirSt} {a : α} (h : x s = (.ok a, s'))
    (f : α → ProvM β) : (x >>= f) s = f a s' := by
  rw [bind_apply, h]

theorem bind_apply_error {x : ProvM α} {s s' : DirSt} {e : PErr} (h : x s = (.error e, s'))
    (f : α → ProvM β) : (x >>= f) s = (.error e, s') := by
  rw [bind_apply, h]

/-! ### Instance Directory primitives

Modelled from the spec: instance list/get/create/reinstall/start/stop/
update-display-name, secret list/create, and tag/tag-assignment CRUD (spec
section 6); the long-running primitives (create, reinstall, start) are
"fire then poll until the observed state matches" loops (spec section 5), so
their models perform the completed transition directly. -/

/-- One page (1-indexed) of the paginated instance listing. -/
def listInstancesPage (page size : Nat) : ProvM (List ContaboInstance) := fun s =>
  (.ok ((s.instances.drop ((page - 1) * size)).take size), s)

/-- Point instance lookup; fails when the id is unknown. -/
def getInstance (instanceId : Nat) : ProvM ContaboInstance := fun s =>
  match s.instances.find? (fun i => decide (i.instanceId = instanceId)) with
  | some i => (.ok i, s)
  | none => (.error (.msg ("Failed to get instance".data)), s)

/-- Update the display name of an instance (the ownership/label channel). -/
def setInstanceDisplayName (instanceId : Nat) (displayName : Str) : ProvM Unit := fun s =>
  if s.instances.any (fun i => decide (i.instanceId = instanceId)) then
    (.ok (), { s with
      instances := s.instances.map (fun i =>
        if i.instanceId = instanceId then { i with displayName := displayName } else i),
      events := s.events ++ [Event.setName instanceId displayName] })
  else (.error (.msg ("Failed to update instance".data)), s)

/-- Stop an instance. -/
def stopInstance (instanceId : Nat) : ProvM Unit := fun s =>
  if s.instances.any (fun i => decide (i.instanceId = instanceId)) then
    (.ok (), { s with
      instances := s.instances.map (fun i =>
        if i.instanceId = instanceId then { i with status := ("stopped".data) } else i),
      events := s.events ++ [Event.stopInst instanceId] })
  else (.error (.msg ("Failed to stop instance".data)), s)

/-- Start an instance (poll-until-running completed). -/
def startInstance (instanceId : Nat) : ProvM Unit := fun s =>
  if s.instances.any (fun i => decide (i.instanceId = instanceId)) then
    (.ok (), { s with
      instances := s.instances.map (fun i =>
        if i.instanceId = instanceId then { i with status := ("running".data) } else i),
      events := s.events ++ [Event.startInst instanceId] })
  else (.error (.msg ("Failed to start instance".data)), s)

/-- Reinstall an instance with the given image and ssh keys
(poll-until-running completed). -/
def reinstallInstance (instanceId : Nat) (sshKeys : List Nat) (imageId : Str) : ProvM Unit := fun s =>
  if s.instances.any (fun i => decide (i.instanceId = instanceId)) then
    (.ok (), { s with
      instances := s.instances.map (fun i =>
        if i.instanceId = instanceId then
          { i with imageId := imageId, sshKeys := sshKeys, status := ("running".data) }
        else i),
      events := s.events ++ [Event.reinstall instanceId] })
  else (.error (.msg ("Failed to reinstall instance".data)), s)

/-- Create a fresh instance (poll-until-running completed); returns its id. -/
def createInstance (productId : Str) (sshKeys : List Nat) (displayName : Str)
    (imageId : Str) : ProvM Nat := fun s =>
  (.ok s.nextId, { s with
    instances := s.instances ++ [{
      instanceId := s.nextId, displayName := displayName, productId := productId,
      imageId := imageId, sshKeys := sshKeys, status := ("running".data),
      cancelDate := [], errorMessage := [], dataCenter := [],
      name := ("vmi".data) ++ natRepr s.nextId, ipv4 := ("ip".data) ++ natRepr s.nextId }],
    nextId := s.nextId + 1,
    events := s.events ++ [Event.createInst s.nextId] })

/-- Create a tag; returns the fresh tag id. -/
def createTag (name : Str) : ProvM Nat := fun s =>
  (.ok s.nextId, { s with
    tags := s.tags ++ [{ tagId := s.nextId, name := name }],
    nextId := s.nextId + 1,
    events := s.events ++ [Event.tagCreated s.nextId] })

/-- Delete a tag; fails when the id is unknown. -/
def deleteTag (tagId : Nat) : ProvM Unit := fun s =>
  if s.tags.any (fun t => decide (t.tagId = tagId)) then
    (.ok (), { s with
      tags := s.tags.filter (fun t => decide (t.tagId ≠ tagId)),
      events := s.events ++ [Event.tagDeleted tagId] })
  else (.error (.msg ("Failed to delete tag".data)), s)

/-- List the assignments of one tag. -/
def listTagAssignments (tagId : Nat) : ProvM (List ContaboTagAssignment) := fun s =>
  (.ok (s.tagAssignments.filter (fun a => decide (a.tagId = tagId))), s)

/-- Create a tag assignment. -/
def createTagAssignment (tagId : Nat) (resourceType resourceId : Str) : ProvM Unit := fun s =>
  (.ok (), { s with
    tagAssignments := s.tagAssignments ++
      [{ tagId := tagId, resourceType := resourceType, resourceId := resourceId }],
    events := s.events ++ [Event.asgCreated tagId resourceId] })

/-- Delete a tag assignment; fails when no such assignment exists. -/
def deleteTagAssignment (tagId : Nat) (resourceType resourceId : Str) : ProvM Unit := fun s =>
  if s.tagAssignments.any (fun a =>
      decide (a.tagId = tagId ∧ a.resourceType = resourceType ∧ a.resourceId = resourceId)) then
    (.ok (), { s with
      tagAssignments := s.tagAssignments.filter (fun a =>
        decide (¬ (a.tagId = tagId ∧ a.resourceType = resourceType ∧ a.resourceId = resourceId))),
      events := s.events ++ [Event.asgDeleted tagId resourceId] })
  else (.error (.msg ("Failed to delete tag assignment".data)), s)

/-- List the secrets of one type and name. -/
def listSecrets (secretType name : Str) : ProvM (List ContaboSecret) := fun s =>
  (.ok (s.secrets.filter (fun k => decide (k.secretType = secretType ∧ k.name = name))), s)

/-- Create a secret; returns the fresh secret id. -/
def createSecret (secretType name value : Str) : ProvM Nat := fun s =>
  (.ok s.nextId, { s with
    secrets := s.secrets ++
      [{ secretId := s.nextId, secretType := secretType, name := name, value := value }],
    nextId := s.nextId + 1,
    events := s.events ++ [Event.secretCreated s.nextId] })

/-! ### Pagination (`paginateFilter` / `paginateFind` in src/core/utils.ts)

The page loop requests pages of size `size` and stops after the first short
page.  For a pure (side-effect-free) condition over a fixed underlying list,
the loop's pages are the chunks of that list; `fuel` bounds the page count
(the callers always supply enough, and the source loop diverges for
`pageSize = 0`, which no caller uses — the model returns `[]` there). -/

def chunkPagesCore (size : Nat) : Nat → List α → List (List α)
  | 0, _ => []
  | fuel + 1, l =>
    if (l.take size).length < size then [l.take size]
    else l.take size :: chunkPagesCore size fuel (l.drop size)

/-- Page decomposition of a list as requested by the pagination loop. -/
def chunkPages (size : Nat) (l : List α) : List (List α) :=
  chunkPagesCore size (l.length + 1) l

/-- Pure model of `paginateFilter`: filter every requested page, concatenate. -/
def paginateFilterPure (l : List α) (size : Nat) (cond : α → Bool) : List α :=
  ((chunkPages size l).map (fun page => page.filter cond)).flatten

/-- Pure model of `paginateFind`: first filtered element, if any. -/
def paginateFindPure (l : List α) (size : Nat) (cond : α → Bool) : Option α :=
  (paginateFilterPure l size cond).head?

theorem chunkPagesCore_flatten (size : Nat) (hsize : 0 < size) :
    ∀ fuel (l : List α), l.length ≤ fuel → (chunkPagesCore size fuel l).flatten = l := by
  intro fuel
  induction fuel with
  | zero =>
    intro l hl
    have : l = [] := List.length_eq_zero.mp (Nat.le_zero.mp hl)
    simp [this, chunkPagesCore]
  | succ fuel ih =>
    intro l hl
    unfold chunkPagesCore
    by_cases hshort : (l.take size).length < size
    · have : l.length < size := by
        rw [List.length_take] at hshort
        omega
      rw [if_pos hshort, List.take_of_length_le (Nat.le_of_lt this)]
      simp
    · have hlen : size ≤ l.length := by
        rw [List.length_take] at hshort
        omega
      simp only [if_neg hshort, List.flatten_cons]
      rw [ih (l.drop size) (by simp; omega)]
      exact List.take_append_drop size l

theorem paginateFilterPure_eq_filter (l : List α) (size : Nat) (hsize : 0 < size)
    (cond : α → Bool) : paginateFilterPure l size cond = l.filter cond := by
  unfold paginateFilterPure
  rw [← List.filter_flatten]
  unfold chunkPages
  rw [chunkPagesCore_flatten size hsize (l.length + 1) l (by omega)]

/-! ### ContaboNodeProvisioner (src/core/node_provisioners/contabo.ts)

Faithful translation of the provisioner.  `await` points become sequential
binds; `.catch` becomes `tryIgnore`.  The page sorter passed by
`ensureInstance` is argument-degenerate when no preferred data center is given
(the only way it is called), so the model keeps the directory's page order. -/

/-- The node handle (`Node` in node_provisioners/mod.ts). -/
structure Node where
  clusterId : Str
  id : Str
  name : Str
  publicIp : Str
deriving DecidableEq, Repr

/-- `transformInstanceToNode` (contabo.ts lines 16-24). -/
def transformInstanceToNode (clusterId : Str) (i : ContaboInstance) : Node :=
  { clusterId := clusterId, id := natRepr i.instanceId, name := i.name, publicIp := i.ipv4 }

/-- The cluster-membership marker embedded in display names and tag names. -/
def clusterMarker (clusterId : Str) : Str := ("cluster=".data) ++ clusterId

/-- `ContaboProvider.Ubuntu_24_04_ImageId`. -/
def ubuntuImageId : Str := ("d64d5c6c-9dda-4e38-8174-0ee282474d8a".data)

/-- `listNodes` (contabo.ts lines 110-125): page through the directory,
keep the instances whose display name contains the cluster marker, transform
each into a `Node`.  A pure function of the directory state (the generator
performs no mutation). -/
def listNodes (s : DirSt) (clusterId : Str) (pageSize : Nat) : List Node :=
  (paginateFilterPure s.instances pageSize
    (fun i => strIncludes i.displayName (clusterMarker clusterId))).map
    (transformInstanceToNode clusterId)

/-- `getTagByName` (contabo.ts lines 166-171): paginated find over the
name-filtered tag listing. -/
def getTagByName (name : Str) : ProvM ContaboTag := do
  let s ← getDir
  match paginateFindPure (s.tags.filter (fun t => decide (t.name = name))) 100
      (fun t => decide (t.name = name)) with
  | some t => pure t
  | none => throwP ("PaginateFind: Item not found".data)

/-- `ensureTag` (contabo.ts lines 173-182). -/
def ensureTag (name : Str) : ProvM Nat :=
  tryCatchP (do
    let t ← getTagByName name
    pure t.tagId)
    (fun _ => createTag name)

/-- `assignTag` (contabo.ts lines 184-203): throws when the tag is already
assigned to the resource. -/
def assignTag (name resourceType resourceId : Str) : ProvM Nat := do
  let tagId ← ensureTag name
  let tagAssignments ← listTagAssignments tagId
  match tagAssignments.find? (fun a =>
      decide (a.resourceId = resourceId ∧ a.resourceType = resourceType)) with
  | some _ =>
    throwP (("Tag ".data) ++ name ++ (" already assigned to resource ".data) ++ resourceId ++
      (" of type ".data) ++ resourceType)
  | none => do
    createTagAssignment tagId resourceType resourceId
    pure tagId

/-- `unassignTag` (contabo.ts lines 205-222). -/
def unassignTag (name resourceType resourceId : Str) : ProvM Unit := do
  let tag ← getTagByName name
  let tagAssignments ← listTagAssignments tag.tagId
  if tagAssignments.length = 0 then
    throwP (("Tag ".data) ++ name ++ (" not assigned to resource ".data) ++ resourceId ++
      (" of type ".data) ++ resourceType)
  else do
    deleteTagAssignment tag.tagId resourceType resourceId
    if tagAssignments.length = 1 then deleteTag tag.tagId else pure ()

/-- `ensureSshKey` (contabo.ts lines 245-252). -/
def ensureSshKey (name value : Str) : ProvM Nat := do
  let sshKeys ← listSecrets ("ssh".data) name
  match sshKeys with
  | [] => createSecret ("ssh".data) name value
  | k :: _ => pure k.secretId

/-- `resetInstance` (contabo.ts lines 145-156): clear the display name, then
stop the instance best-effort. -/
def resetInstance (instanceId : Nat) : ProvM Unit := do
  setInstanceDisplayName instanceId []
  tryIgnore (stopInstance instanceId)

/-- Arguments of `ensureInstance` (the `privateNetworks` option is unused by
the claim phase and omitted). -/
structure EnsureInstanceOptions where
  provisioning : Str
  displayName : Nat → Str
  sshKeys : List Nat
  productId : Str

/-- The candidate condition of `ensureInstance`'s `paginateFind` (contabo.ts
lines 275-311), including its side effects: cancelled or errored instances get
marked in their display name, and a candidate with the wrong image or keys is
reinstalled before the status test (which still reads the page snapshot). -/
def ensureInstanceScanCondition (opts : EnsureInstanceOptions)
    (i : ContaboInstance) : ProvM Bool := do
  if i.displayName ≠ [] then pure false
  else if opts.productId ≠ i.productId then pure false
  else if i.cancelDate ≠ [] then do
    setInstanceDisplayName i.instanceId (natRepr i.instanceId ++ (" status=cancelled".data))
    pure false
  else if i.errorMessage ≠ [] then do
    setInstanceDisplayName i.instanceId
      ((natRepr i.instanceId ++ (" error=".data) ++ i.errorMessage).take 64)
    pure false
  else
    (if i.imageId ≠ ubuntuImageId ∨ ¬ (opts.sshKeys.all (fun k => decide (k ∈ i.sshKeys))) then
      reinstallInstance i.instanceId opts.sshKeys ubuntuImageId
    else pure ()) >>= fun _ =>
    if i.status ≠ ("stopped".data) ∧ i.status ≠ ("running".data) then pure false
    else pure true

/-- Walk one fetched page, evaluating the condition per item (errors thrown by
the condition skip the item, as in `paginateFilter`'s per-item try/catch). -/
def findInPage (cond : α → ProvM Bool) : List α → ProvM (Option α)
  | [] => pure none
  | x :: xs => do
    let b ← tryCatchP (cond x) (fun _ => pure false)
    if b then pure (some x) else findInPage cond xs

/-- Page loop of the effectful `paginateFind` over the instance listing:
fetch page, scan it, stop on a hit or a short page. -/
def scanPagesCore (cond : ContaboInstance → ProvM Bool) (size : Nat) :
    Nat → Nat → ProvM (Option ContaboInstance)
  | 0, _ => pure none
  | fuel + 1, page => do
    let items ← listInstancesPage page size
    let r ← findInPage cond items
    match r with
    | some x => pure (some x)
    | none =>
      if items.length < size then pure none
      else scanPagesCore cond size fuel (page + 1)

/-- Effectful `paginateFind` over instances, `none` for "Item not found"
(the condition never grows the instance list, so `instances.length + 1` pages
always suffice). -/
def paginateFindInstance (cond : ContaboInstance → ProvM Bool) (size : Nat) :
    ProvM (Option ContaboInstance) := do
  let s ← getDir
  scanPagesCore cond size (s.instances.length + 1) 1

/-- `ensureInstance` (contabo.ts lines 261-372): find an unclaimed candidate
(or fail with the capacity error in manual mode / create an instance in auto
mode), write the ownership display name, re-read the instance, and start it if
it is not running.  The re-read result is returned without comparing its
display name to the written one. -/
def ensureInstance (opts : EnsureInstanceOptions) : ProvM ContaboInstance := do
  let found ← paginateFindInstance (ensureInstanceScanCondition opts) 100
  let inst0 ← (match found with
    | some i => pure i
    | none =>
      if opts.provisioning ≠ ("auto".data) then
        throwP ("Automatic provisioning disabled, no available instances found, please provision instances in Contabo first".data)
      else do
        let newId ← createInstance opts.productId opts.sshKeys ("provisioning...".data) ubuntuImageId
        getInstance newId)
  setInstanceDisplayName inst0.instanceId (opts.displayName inst0.instanceId)
  let inst1 ← getInstance inst0.instanceId
  if inst1.status ≠ ("running".data) then do
    startInstance inst1.instanceId
    getInstance inst1.instanceId
  else
    pure inst1

/-- `deprovisionNode` (contabo.ts lines 99-108): best-effort tag unassign,
then best-effort reset (`parseInt` of a non-numeric node id makes the provider
call fail, which the enclosing catch swallows). -/
def deprovisionNode (clusterId nodeId : Str) : ProvM Unit := do
  tryIgnore (unassignTag (clusterMarker clusterId) ("instance".data) nodeId)
  tryIgnore (match parseIntJS nodeId with
    | some instanceId => resetInstance instanceId
    | none => throwP ("Failed to update instance".data))

/-- `getNode` (contabo.ts lines 127-134): fetch the instance by parsed id and
transform it — note that the display name is never consulted. -/
def getNode (clusterId nodeId : Str) : ProvM Node := do
  let inst ← (match parseIntJS nodeId with
    | some instanceId => getInstance instanceId
    | none => throwP ("Failed to get instance".data))
  pure (transformInstanceToNode clusterId inst)

/-- The ownership display name written by `provisionNode`
(the `displayName` callback at contabo.ts line 35). -/
def provisionDisplayName (clusterId : Str) (instanceId : Nat) : Str :=
  natRepr instanceId ++ (" ".data) ++ clusterMarker clusterId

/-- The failure marker written on a verification failure (contabo.ts lines
72-80). -/
def failMarker (instanceId : Nat) (ce : CheckErrData) : Str :=
  natRepr instanceId ++ (" error=".data) ++ ce.ctype ++
    (match ce.peerIp with
     | some ip => (" peer=".data) ++ ip
     | none => [])

/-- The peer-node list drained for `checkNodeProvisioning`: every node of the
cluster other than the candidate itself (contabo.ts lines 63-68, a
`filterAsync` over the lazy `listNodes` generator). -/
def peersOf (s : DirSt) (clusterId : Str) (node : Node) : List Node :=
  (listNodes s clusterId 100).filter (fun p => decide (p.id ≠ node.id))

/-- One-attempt-per-level loop body of `provisionNode` (contabo.ts lines
30-97).  `check node peerNodes` is the injected outcome of
`checkNodeProvisioning` (abstract.ts lines 50-93), whose ping/SSH probes are
external network effects: `none` means all checks passed, `some ce` the first
failing check's report data.  On failure the error marker write (an un-awaited
call whose rejection does not propagate) and the reset are performed and the
next attempt starts; with no attempts left the loop throws. -/
def provisionLoop (clusterId sshPublicKey : Str)
    (check : Node → List Node → Option CheckErrData) : Nat → ProvM Node
  | 0 => throwP ("Node provisioning failed after 3 retries".data)
  | n + 1 => do
    let keyId ← ensureSshKey (clusterMarker clusterId) sshPublicKey
    let inst ← ensureInstance
      { provisioning := ("manual".data), displayName := provisionDisplayName clusterId,
        sshKeys := [keyId], productId := ("V78".data) }
    let _ ← assignTag (clusterMarker clusterId) ("instance".data) (natRepr inst.instanceId)
    let s ← getDir
    match check (transformInstanceToNode clusterId inst)
        (peersOf s clusterId (transformInstanceToNode clusterId inst)) with
    | none => do
      logEvent (Event.checkPassed inst.instanceId)
      logEvent (Event.sshRun (transformInstanceToNode clusterId inst).publicIp
        ("sudo killall apt-get || true".data))
      pure (transformInstanceToNode clusterId inst)
    | some ce => do
      logEvent (Event.checkFailed inst.instanceId ce)
      tryIgnore (setInstanceDisplayName inst.instanceId (failMarker inst.instanceId ce))
      tryIgnore (resetInstance inst.instanceId)
      provisionLoop clusterId sshPublicKey check n

/-- `provisionNode` (contabo.ts lines 30-97): up to 3 claim attempts. -/
def provisionNode (clusterId sshPublicKey : Str)
    (check : Node → List Node → Option CheckErrData) : ProvM Node :=
  provisionLoop clusterId sshPublicKey check 3

/-! ### Structural lemmas about provisioner actions -/

/-- An action only appends events, and never a `checkFailed` event (only the
instrumented verification point in `provisionLoop` appends those). -/
def EvGood (x : ProvM α) : Prop :=
  ∀ s, ∃ Δ, ((x s).2).events = s.events ++ Δ ∧ ∀ iid ce, Event.checkFailed iid ce ∉ Δ

/-- An action preserves the list of instance ids (it may rewrite fields of
existing instances but neither adds nor removes instances). -/
def KeepsIds (x : ProvM α) : Prop :=
  ∀ s, ((x s).2).instances.map (fun i => i.instanceId) = s.instances.map (fun i => i.instanceId)

/-- An action leaves the instance list entirely unchanged. -/
def KeepsInstances (x : ProvM α) : Prop :=
  ∀ s, ((x s).2).instances = s.instances

theorem keepsIds_of_keepsInstances {x : ProvM α} (h : KeepsInstances x) : KeepsIds x :=
  fun s => by rw [h s]

theorem evGood_pure (a : α) : EvGood (pure a : ProvM α) :=
  fun s => ⟨[], by simp [pure_apply], by simp⟩

theorem evGood_throwP (m : Str) : EvGood (throwP m : ProvM α) :=
  fun s => ⟨[], by simp [throwP], by simp⟩

theorem evGood_getDir : EvGood getDir :=
  fun s => ⟨[], by simp [getDir], by simp⟩

theorem evGood_bind {x : ProvM α} {f : α → ProvM β} (hx : EvGood x)
    (hf : ∀ a, EvGood (f a)) : EvGood (x >>= f) := by
  intro s
  rcases hx s with ⟨d1, h1, h1'⟩
  rcases hxs : x s with ⟨r1, s1⟩
  rw [hxs] at h1
  cases r1 with
  | error e =>
    refine ⟨d1, ?_, h1'⟩
    rw [bind_apply, hxs]
    exact h1
  | ok a =>
    rcases hf a s1 with ⟨d2, h2, h2'⟩
    refine ⟨d1 ++ d2, ?_, ?_⟩
    · rw [bind_apply, hxs]
      simp only at h2 h1 ⊢
      rw [h2, h1, List.append_assoc]
    · intro iid ce hmem
      rcases List.mem_append.mp hmem with h | h
      exacts [h1' iid ce h, h2' iid ce h]

theorem evGood_tryCatchP {x : ProvM α} {handler : PErr → ProvM α} (hx : EvGood x)
    (hh : ∀ e, EvGood (handler e)) : EvGood (tryCatchP x handler) := by
  intro s
  rcases hx s with ⟨d1, h1, h1'⟩
  rcases hxs : x s with ⟨r1, s1⟩
  rw [hxs] at h1
  cases r1 with
  | ok a =>
    refine ⟨d1, ?_, h1'⟩
    unfold tryCatchP
    rw [hxs]
    exact h1
  | error e =>
    rcases hh e s1 with ⟨d2, h2, h2'⟩
    refine ⟨d1 ++ d2, ?_, ?_⟩
    · unfold tryCatchP
      rw [hxs]
      simp only at h1 h2 ⊢
      rw [h2, h1, List.append_assoc]
    · intro iid ce hmem
      rcases List.mem_append.mp hmem with h | h
      exacts [h1' iid ce h, h2' iid ce h]

theorem evGood_tryIgnore {x : ProvM α} (hx : EvGood x) : EvGood (tryIgnore x) :=
  evGood_tryCatchP (evGood_bind hx (fun _ => evGood_pure ())) (fun _ => evGood_pure ())

theorem evGood_ite {c : Prop} [Decidable c] {x y : ProvM α} (hx : EvGood x)
    (hy : EvGood y) : EvGood (if c then x else y) := by
  by_cases h : c
  · rw [if_pos h]; exact hx
  · rw [if_neg h]; exact hy

theorem keepsInstances_pure (a : α) : KeepsInstances (pure a : ProvM α) := fun _ => rfl

theorem keepsInstances_throwP (m : Str) : KeepsInstances (throwP m : ProvM α) := fun _ => rfl

theorem keepsInstances_getDir : KeepsInstances getDir := fun _ => rfl

theorem keepsInstances_logEvent (e : Event) : KeepsInstances (logEvent e) := fun _ => rfl

theorem keepsInstances_bind {x : ProvM α} {f : α → ProvM β} (hx : KeepsInstances x)
    (hf : ∀ a, KeepsInstances (f a)) : KeepsInstances (x >>= f) := by
  intro s
  rcases hxs : x s with ⟨r1, s1⟩
  have h1 := hx s
  rw [hxs] at h1
  cases r1 with
  | error e => rw [bind_apply, hxs]; exact h1
  | ok a =>
    rw [bind_apply, hxs]
    have h2 := hf a s1
    simp only at h1 h2 ⊢
    rw [h2, h1]

theorem keepsInstances_tryCatchP {x : ProvM α} {handler : PErr → ProvM α}
    (hx : KeepsInstances x) (hh : ∀ e, KeepsInstances (handler e)) :
    KeepsInstances (tryCatchP x handler) := by
  intro s
  rcases hxs : x s with ⟨r1, s1⟩
  have h1 := hx s
  rw [hxs] at h1
  cases r1 with
  | ok a => unfold tryCatchP; rw [hxs]; exact h1
  | error e =>
    unfold tryCatchP
    rw [hxs]
    have h2 := hh e s1
    simp only at h1 h2 ⊢
    rw [h2, h1]

theorem keepsInstances_tryIgnore {x : ProvM α} (hx : KeepsInstances x) :
    KeepsInstances (tryIgnore x) :=
  keepsInstances_tryCatchP (keepsInstances_bind hx (fun _ => keepsInstances_pure ()))
    (fun _ => keepsInstances_pure ())

theorem keepsInstances_ite {c : Prop} [Decidable c] {x y : ProvM α}
    (hx : KeepsInstances x) (hy : KeepsInstances y) : KeepsInstances (if c then x else y) := by
  by_cases h : c
  · rw [if_pos h]; exact hx
  · rw [if_neg h]; exact hy

theorem keepsIds_pure (a : α) : KeepsIds (pure a : ProvM α) := fun _ => rfl

theorem keepsIds_throwP (m : Str) : KeepsIds (throwP m : ProvM α) := fun _ => rfl

theorem keepsIds_bind {x : ProvM α} {f : α → ProvM β} (hx : KeepsIds x)
    (hf : ∀ a, KeepsIds (f a)) : KeepsIds (x >>= f) := by
  intro s
  rcases hxs : x s with ⟨r1, s1⟩
  have h1 := hx s
  rw [hxs] at h1
  cases r1 with
  | error e => rw [bind_apply, hxs]; exact h1
  | ok a =>
    rw [bind_apply, hxs]
    have h2 := hf a s1
    simp only at h1 h2 ⊢
    rw [h2, h1]

theorem keepsIds_tryCatchP {x : ProvM α} {handler : PErr → ProvM α}
    (hx : KeepsIds x) (hh : ∀ e, KeepsIds (handler e)) : KeepsIds (tryCatchP x handler) := by
  intro s
  rcases hxs : x s with ⟨r1, s1⟩
  have h1 := hx s
  rw [hxs] at h1
  cases r1 with
  | ok a => unfold tryCatchP; rw [hxs]; exact h1
  | error e =>
    unfold tryCatchP
    rw [hxs]
    have h2 := hh e s1
    simp only at h1 h2 ⊢
    rw [h2, h1]

theorem keepsIds_tryIgnore {x : ProvM α} (hx : KeepsIds x) : KeepsIds (tryIgnore x) :=
  keepsIds_tryCatchP (keepsIds_bind hx (fun _ => keepsIds_pure ()))
    (fun _ => keepsIds_pure ())

theorem keepsIds_ite {c : Prop} [Decidable c] {x y : ProvM α} (hx : KeepsIds x)
    (hy : KeepsIds y) : KeepsIds (if c then x else y) := by
  by_cases h : c
  · rw [if_pos h]; exact hx
  · rw [if_neg h]; exact hy

theorem evGood_logEvent (e : Event) (he : ∀ iid ce, e ≠ Event.checkFailed iid ce) :
    EvGood (logEvent e) := by
  intro s
  refine ⟨[e], rfl, ?_⟩
  intro iid ce h
  rw [List.mem_singleton] at h
  exact he iid ce h.symm

theorem evGood_listInstancesPage (page size : Nat) : EvGood (listInstancesPage page size) :=
  fun s => ⟨[], by simp [listInstancesPage], by simp⟩

theorem keepsInstances_listInstancesPage (page size : Nat) :
    KeepsInstances (listInstancesPage page size) := fun _ => rfl

theorem evGood_getInstance (iid : Nat) : EvGood (getInstance iid) := by
  intro s
  refine ⟨[], ?_, by simp⟩
  simp only [getInstance]
  split <;> simp

theorem keepsInstances_getInstance (iid : Nat) : KeepsInstances (getInstance iid) := by
  intro s
  simp only [getInstance]
  split <;> rfl

theorem evGood_setInstanceDisplayName (iid : Nat) (nm : Str) :
    EvGood (setInstanceDisplayName iid nm) := by
  intro s
  simp only [setInstanceDisplayName]
  split
  · exact ⟨[Event.setName iid nm], rfl, by intro i ce h; simp at h⟩
  · exact ⟨[], by simp, by simp⟩

theorem keepsIds_setInstanceDisplayName (iid : Nat) (nm : Str) :
    KeepsIds (setInstanceDisplayName iid nm) := by
  intro s
  simp only [setInstanceDisplayName]
  split
  · simp only
    rw [List.map_map]
    apply List.map_congr_left
    intro i _
    by_cases h : i.instanceId = iid <;> simp [h]
  · rfl

theorem evGood_stopInstance (iid : Nat) : EvGood (stopInstance iid) := by
  intro s
  simp only [stopInstance]
  split
  · exact ⟨[Event.stopInst iid], rfl, by intro i ce h; simp at h⟩
  · exact ⟨[], by simp, by simp⟩

theorem keepsIds_stopInstance (iid : Nat) : KeepsIds (stopInstance iid) := by
  intro s
  simp only [stopInstance]
  split
  · simp only
    rw [List.map_map]
    apply List.map_congr_left
    intro i _
    by_cases h : i.instanceId = iid <;> simp [h]
  · rfl

theorem evGood_startInstance (iid : Nat) : EvGood (startInstance iid) := by
  intro s
  simp only [startInstance]
  split
  · exact ⟨[Event.startInst iid], rfl, by intro i ce h; simp at h⟩
  · exact ⟨[], by simp, by simp⟩

theorem keepsIds_startInstance (iid : Nat) : KeepsIds (startInstance iid) := by
  intro s
  simp only [startInstance]
  split
  · simp only
    rw [List.map_map]
    apply List.map_congr_left
    intro i _
    by_cases h : i.instanceId = iid <;> simp [h]
  · rfl

theorem evGood_reinstallInstance (iid : Nat) (keys : List Nat) (img : Str) :
    EvGood (reinstallInstance iid keys img) := by
  intro s
  simp only [reinstallInstance]
  split
  · exact ⟨[Event.reinstall iid], rfl, by intro i ce h; simp at h⟩
  · exact ⟨[], by simp, by simp⟩

theorem keepsIds_reinstallInstance (iid : Nat) (keys : List Nat) (img : Str) :
    KeepsIds (reinstallInstance iid keys img) := by
  intro s
  simp only [reinstallInstance]
  split
  · simp only
    rw [List.map_map]
    apply List.map_congr_left
    intro i _
    by_cases h : i.instanceId = iid <;> simp [h]
  · rfl

theorem evGood_createInstance (productId : Str) (keys : List Nat) (nm img : Str) :
    EvGood (createInstance productId keys nm img) :=
  fun s => ⟨[Event.createInst s.nextId], rfl, by intro i ce h; simp at h⟩

theorem evGood_createTag (nm : Str) : EvGood (createTag nm) :=
  fun s => ⟨[Event.tagCreated s.nextId], rfl, by intro i ce h; simp at h⟩

theorem keepsInstances_createTag (nm : Str) : KeepsInstances (createTag nm) := fun _ => rfl

theorem evGood_deleteTag (tagId : Nat) : EvGood (deleteTag tagId) := by
  intro s
  simp only [deleteTag]
  split
  · exact ⟨[Event.tagDeleted tagId], rfl, by intro i ce h; simp at h⟩
  · exact ⟨[], by simp, by simp⟩

theorem keepsInstances_deleteTag (tagId : Nat) : KeepsInstances (deleteTag tagId) := by
  intro s
  simp only [deleteTag]
  split <;> rfl

theorem evGood_listTagAssignments (tagId : Nat) : EvGood (listTagAssignments tagId) :=
  fun s => ⟨[], by simp [listTagAssignments], by simp⟩

theorem keepsInstances_listTagAssignments (tagId : Nat) :
    KeepsInstances (listTagAssignments tagId) := fun _ => rfl

theorem evGood_createTagAssignment (tagId : Nat) (rt rid : Str) :
    EvGood (createTagAssignment tagId rt rid) :=
  fun _ => ⟨[Event.asgCreated tagId rid], rfl, by intro i ce h; simp at h⟩

theorem keepsInstances_createTagAssignment (tagId : Nat) (rt rid : Str) :
    KeepsInstances (createTagAssignment tagId rt rid) := fun _ => rfl

theorem evGood_deleteTagAssignment (tagId : Nat) (rt rid : Str) :
    EvGood (deleteTagAssignment tagId rt rid) := by
  intro s
  simp only [deleteTagAssignment]
  split
  · exact ⟨[Event.asgDeleted tagId rid], rfl, by intro i ce h; simp at h⟩
  · exact ⟨[], by simp, by simp⟩

theorem keepsInstances_deleteTagAssignment (tagId : Nat) (rt rid : Str) :
    KeepsInstances (deleteTagAssignment tagId rt rid) := by
  intro s
  simp only [deleteTagAssignment]
  split <;> rfl

theorem evGood_listSecrets (t nm : Str) : EvGood (listSecrets t nm) :=
  fun s => ⟨[], by simp [listSecrets], by simp⟩

theorem keepsInstances_listSecrets (t nm : Str) : KeepsInstances (listSecrets t nm) :=
  fun _ => rfl

theorem evGood_createSecret (t nm v : Str) : EvGood (createSecret t nm v) :=
  fun s => ⟨[Event.secretCreated s.nextId], rfl, by intro i ce h; simp at h⟩

theorem keepsInstances_createSecret (t nm v : Str) : KeepsInstances (createSecret t nm v) :=
  fun _ => rfl

theorem evGood_getTagByName (nm : Str) : EvGood (getTagByName nm) := by
  unfold getTagByName
  apply evGood_bind evGood_getDir
  intro s
  cases paginateFindPure (s.tags.filter (fun t => decide (t.name = nm))) 100
      (fun t => decide (t.name = nm)) with
  | some t => exact evGood_pure t
  | none => exact evGood_throwP _

theorem keepsInstances_getTagByName (nm : Str) : KeepsInstances (getTagByName nm) := by
  unfold getTagByName
  apply keepsInstances_bind keepsInstances_getDir
  intro s
  cases paginateFindPure (s.tags.filter (fun t => decide (t.name = nm))) 100
      (fun t => decide (t.name = nm)) with
  | some t => exact keepsInstances_pure t
  | none => exact keepsInstances_throwP _

theorem evGood_ensureTag (nm : Str) : EvGood (ensureTag nm) := by
  unfold ensureTag
  exact evGood_tryCatchP
    (evGood_bind (evGood_getTagByName nm) (fun t => evGood_pure t.tagId))
    (fun _ => evGood_createTag nm)

theorem keepsInstances_ensureTag (nm : Str) : KeepsInstances (ensureTag nm) := by
  unfold ensureTag
  exact keepsInstances_tryCatchP
    (keepsInstances_bind (keepsInstances_getTagByName nm) (fun t => keepsInstances_pure t.tagId))
    (fun _ => keepsInstances_createTag nm)

theorem evGood_assignTag (nm rt rid : Str) : EvGood (assignTag nm rt rid) := by
  unfold assignTag
  apply evGood_bind (evGood_ensureTag nm)
  intro tagId
  apply evGood_bind (evGood_listTagAssignments tagId)
  intro tagAssignments
  cases tagAssignments.find? (fun a => decide (a.resourceId = rid ∧ a.resourceType = rt)) with
  | some a => exact evGood_throwP _
  | none =>
    exact evGood_bind (evGood_createTagAssignment tagId rt rid) (fun _ => evGood_pure tagId)

theorem keepsInstances_assignTag (nm rt rid : Str) : KeepsInstances (assignTag nm rt rid) := by
  unfold assignTag
  apply keepsInstances_bind (keepsInstances_ensureTag nm)
  intro tagId
  apply keepsInstances_bind (keepsInstances_listTagAssignments tagId)
  intro tagAssignments
  cases tagAssignments.find? (fun a => decide (a.resourceId = rid ∧ a.resourceType = rt)) with
  | some a => exact keepsInstances_throwP _
  | none =>
    exact keepsInstances_bind (keepsInstances_createTagAssignment tagId rt rid)
      (fun _ => keepsInstances_pure tagId)

theorem evGood_unassignTag (nm rt rid : Str) : EvGood (unassignTag nm rt rid) := by
  unfold unassignTag
  apply evGood_bind (evGood_getTagByName nm)
  intro tag
  apply evGood_bind (evGood_listTagAssignments tag.tagId)
  intro tagAssignments
  apply evGood_ite (evGood_throwP _)
  exact evGood_bind (evGood_deleteTagAssignment tag.tagId rt rid)
    (fun _ => evGood_ite (evGood_deleteTag tag.tagId) (evGood_pure ()))

theorem keepsInstances_unassignTag (nm rt rid : Str) : KeepsInstances (unassignTag nm rt rid) := by
  unfold unassignTag
  apply keepsInstances_bind (keepsInstances_getTagByName nm)
  intro tag
  apply keepsInstances_bind (keepsInstances_listTagAssignments tag.tagId)
  intro tagAssignments
  apply keepsInstances_ite (keepsInstances_throwP _)
  exact keepsInstances_bind (keepsInstances_deleteTagAssignment tag.tagId rt rid)
    (fun _ => keepsInstances_ite (keepsInstances_deleteTag tag.tagId) (keepsInstances_pure ()))

theorem evGood_ensureSshKey (nm v : Str) : EvGood (ensureSshKey nm v) := by
  unfold ensureSshKey
  apply evGood_bind (evGood_listSecrets _ nm)
  intro keys
  cases keys with
  | nil => exact evGood_createSecret _ nm v
  | cons k _ => exact evGood_pure k.secretId

theorem keepsInstances_ensureSshKey (nm v : Str) : KeepsInstances (ensureSshKey nm v) := by
  unfold ensureSshKey
  apply keepsInstances_bind (keepsInstances_listSecrets _ nm)
  intro keys
  cases keys with
  | nil => exact keepsInstances_createSecret _ nm v
  | cons k _ => exact keepsInstances_pure k.secretId

theorem evGood_resetInstance (iid : Nat) : EvGood (resetInstance iid) := by
  unfold resetInstance
  exact evGood_bind (evGood_setInstanceDisplayName iid [])
    (fun _ => evGood_tryIgnore (evGood_stopInstance iid))

theorem keepsIds_resetInstance (iid : Nat) : KeepsIds (resetInstance iid) := by
  unfold resetInstance
  exact keepsIds_bind (keepsIds_setInstanceDisplayName iid [])
    (fun _ => keepsIds_tryIgnore (keepsIds_stopInstance iid))

theorem evGood_ensureInstanceScanCondition (opts : EnsureInstanceOptions)
    (i : ContaboInstance) : EvGood (ensureInstanceScanCondition opts i) := by
  unfold ensureInstanceScanCondition
  apply evGood_ite (evGood_pure false)
  apply evGood_ite (evGood_pure false)
  apply evGood_ite
    (evGood_bind (evGood_setInstanceDisplayName _ _) (fun _ => evGood_pure false))
  apply evGood_ite
    (evGood_bind (evGood_setInstanceDisplayName _ _) (fun _ => evGood_pure false))
  apply evGood_bind
    (evGood_ite (evGood_reinstallInstance _ _ _) (evGood_pure ()))
  intro _
  exact evGood_ite (evGood_pure false) (evGood_pure true)

theorem keepsIds_ensureInstanceScanCondition (opts : EnsureInstanceOptions)
    (i : ContaboInstance) : KeepsIds (ensureInstanceScanCondition opts i) := by
  unfold ensureInstanceScanCondition
  apply keepsIds_ite (keepsIds_pure false)
  apply keepsIds_ite (keepsIds_pure false)
  apply keepsIds_ite
    (keepsIds_bind (keepsIds_setInstanceDisplayName _ _) (fun _ => keepsIds_pure false))
  apply keepsIds_ite
    (keepsIds_bind (keepsIds_setInstanceDisplayName _ _) (fun _ => keepsIds_pure false))
  apply keepsIds_bind
    (keepsIds_ite (keepsIds_reinstallInstance _ _ _) (keepsIds_pure ()))
  intro _
  exact keepsIds_ite (keepsIds_pure false) (keepsIds_pure true)

theorem evGood_findInPage {cond : α → ProvM Bool} (hc : ∀ a, EvGood (cond a)) :
    ∀ l, EvGood (findInPage cond l) := by
  intro l
  induction l with
  | nil => exact evGood_pure none
  | cons x xs ih =>
    simp only [findInPage]
    apply evGood_bind (evGood_tryCatchP (hc x) (fun _ => evGood_pure false))
    intro b
    exact evGood_ite (evGood_pure (some x)) ih

theorem keepsIds_findInPage {cond : α → ProvM Bool} (hc : ∀ a, KeepsIds (cond a)) :
    ∀ l, KeepsIds (findInPage cond l) := by
  intro l
  induction l with
  | nil => exact keepsIds_pure none
  | cons x xs ih =>
    simp only [findInPage]
    apply keepsIds_bind (keepsIds_tryCatchP (hc x) (fun _ => keepsIds_pure false))
    intro b
    exact keepsIds_ite (keepsIds_pure (some x)) ih

theorem evGood_scanPagesCore {cond : ContaboInstance → ProvM Bool}
    (hc : ∀ a, EvGood (cond a)) (size : Nat) :
    ∀ fuel page, EvGood (scanPagesCore cond size fuel page) := by
  intro fuel
  induction fuel with
  | zero => intro page; exact evGood_pure none
  | succ fuel ih =>
    intro page
    simp only [scanPagesCore]
    apply evGood_bind (evGood_listInstancesPage page size)
    intro items
    apply evGood_bind (evGood_findInPage hc items)
    intro r
    cases r with
    | some x => exact evGood_pure (some x)
    | none => exact evGood_ite (evGood_pure none) (ih (page + 1))

theorem keepsIds_scanPagesCore {cond : ContaboInstance → ProvM Bool}
    (hc : ∀ a, KeepsIds (cond a)) (size : Nat) :
    ∀ fuel page, KeepsIds (scanPagesCore cond size fuel page) := by
  intro fuel
  induction fuel with
  | zero => intro page; exact keepsIds_pure none
  | succ fuel ih =>
    intro page
    simp only [scanPagesCore]
    apply keepsIds_bind (keepsIds_of_keepsInstances (keepsInstances_listInstancesPage page size))
    intro items
    apply keepsIds_bind (keepsIds_findInPage hc items)
    intro r
    cases r with
    | some x => exact keepsIds_pure (some x)
    | none => exact keepsIds_ite (keepsIds_pure none) (ih (page + 1))

theorem evGood_paginateFindInstance {cond : ContaboInstance → ProvM Bool}
    (hc : ∀ a, EvGood (cond a)) (size : Nat) : EvGood (paginateFindInstance cond size) := by
  unfold paginateFindInstance
  apply evGood_bind evGood_getDir
  intro s
  exact evGood_scanPagesCore hc size (s.instances.length + 1) 1

theorem keepsIds_paginateFindInstance {cond : ContaboInstance → ProvM Bool}
    (hc : ∀ a, KeepsIds (cond a)) (size : Nat) : KeepsIds (paginateFindInstance cond size) := by
  unfold paginateFindInstance
  apply keepsIds_bind (keepsIds_of_keepsInstances keepsInstances_getDir)
  intro s
  exact keepsIds_scanPagesCore hc size (s.instances.length + 1) 1

theorem evGood_ensureInstance (opts : EnsureInstanceOptions) : EvGood (ensureInstance opts) := by
  unfold ensureInstance
  apply evGood_bind
    (evGood_paginateFindInstance (evGood_ensureInstanceScanCondition opts) 100)
  intro found
  apply evGood_bind ?_ ?_
  · cases found with
    | some i => exact evGood_pure i
    | none =>
      apply evGood_ite (evGood_throwP _)
      exact evGood_bind (evGood_createInstance _ _ _ _) (fun newId => evGood_getInstance newId)
  · intro inst0
    apply evGood_bind (evGood_setInstanceDisplayName _ _)
    intro _
    apply evGood_bind (evGood_getInstance _)
    intro inst1
    apply evGood_ite ?_ (evGood_pure inst1)
    exact evGood_bind (evGood_startInstance _) (fun _ => evGood_getInstance _)

/-- `provisionNode` never creates instances: it calls `ensureInstance` in
manual provisioning mode, where the no-candidate branch throws the capacity
error instead of creating one, and every other mutation rewrites fields of
existing instances in place. -/
theorem keepsIds_ensureInstance (opts : EnsureInstanceOptions)
    (hman : opts.provisioning = ("manual".data)) : KeepsIds (ensureInstance opts) := by
  unfold ensureInstance
  apply keepsIds_bind
    (keepsIds_paginateFindInstance (keepsIds_ensureInstanceScanCondition opts) 100)
  intro found
  apply keepsIds_bind ?_ ?_
  · cases found with
    | some i => exact keepsIds_pure i
    | none =>
      have hne : opts.provisioning ≠ ("auto".data) := by rw [hman]; decide
      rw [if_pos hne]
      exact keepsIds_throwP _
  · intro inst0
    apply keepsIds_bind (keepsIds_setInstanceDisplayName _ _)
    intro _
    apply keepsIds_bind (keepsIds_of_keepsInstances (keepsInstances_getInstance _))
    intro inst1
    apply keepsIds_ite ?_ (keepsIds_pure inst1)
    exact keepsIds_bind (keepsIds_startInstance _)
      (fun _ => keepsIds_of_keepsInstances (keepsInstances_getInstance _))

/-! ### Exact behaviour of single operations -/

theorem getInstance_ok_spec {iid : Nat} {s s' : DirSt} {inst : ContaboInstance}
    (h : getInstance iid s = (.ok inst, s')) :
    s' = s ∧ s.instances.find? (fun i => decide (i.instanceId = iid)) = some inst ∧
      inst.instanceId = iid := by
  unfold getInstance at h
  cases hf : s.instances.find? (fun i => decide (i.instanceId = iid)) with
  | some i =>
    rw [hf] at h
    have h1 : (Except.ok i : Except PErr ContaboInstance) = .ok inst := congrArg Prod.fst h
    have h2 : s = s' := congrArg Prod.snd h
    have hi : i = inst := by injection h1
    rw [hi] at hf
    refine ⟨h2.symm, by rw [hi], ?_⟩
    have h3 := List.find?_some hf
    simpa using h3
  | none =>
    rw [hf] at h
    simp at h

/-- Updating one instance's field with a map over the list commutes with the
id-keyed point lookup. -/
theorem find?_map_idUpdate (l : List ContaboInstance) (iid : Nat)
    (g : ContaboInstance → ContaboInstance) (hg : ∀ i, (g i).instanceId = i.instanceId) :
    (l.map (fun i => if i.instanceId = iid then g i else i)).find?
        (fun i => decide (i.instanceId = iid)) =
      (l.find? (fun i => decide (i.instanceId = iid))).map
        (fun i => if i.instanceId = iid then g i else i) := by
  induction l with
  | nil => rfl
  | cons a l ih =>
    by_cases ha : a.instanceId = iid
    · have hga : (g a).instanceId = iid := by rw [hg a, ha]
      rw [List.map_cons, if_pos ha,
        List.find?_cons_of_pos _ (by simpa using hga),
        List.find?_cons_of_pos _ (by simpa using ha)]
      simp [ha]
    · rw [List.map_cons, if_neg ha,
        List.find?_cons_of_neg _ (by simpa using ha),
        List.find?_cons_of_neg _ (by simpa using ha), ih]

theorem throwP_apply (m : Str) (s : DirSt) : (throwP m : ProvM α) s = (.error (.msg m), s) := rfl

theorem createInstance_apply (p : Str) (keys : List Nat) (nm img : Str) (s : DirSt) :
    createInstance p keys nm img s =
      (.ok s.nextId, { s with
        instances := s.instances ++ [{
          instanceId := s.nextId, displayName := nm, productId := p,
          imageId := img, sshKeys := keys, status := ("running".data),
          cancelDate := [], errorMessage := [], dataCenter := [],
          name := ("vmi".data) ++ natRepr s.nextId, ipv4 := ("ip".data) ++ natRepr s.nextId }],
        nextId := s.nextId + 1,
        events := s.events ++ [Event.createInst s.nextId] }) := rfl

theorem setInstanceDisplayName_ok {iid : Nat} {nm : Str} {s s' : DirSt} {u : Unit}
    (h : setInstanceDisplayName iid nm s = (.ok u, s')) :
    s' = { s with
      instances := s.instances.map (fun i =>
        if i.instanceId = iid then { i with displayName := nm } else i),
      events := s.events ++ [Event.setName iid nm] } := by
  unfold setInstanceDisplayName at h
  split at h
  · exact (congrArg Prod.snd h).symm
  · have := congrArg Prod.fst h
    simp at this

theorem setInstanceDisplayName_of_mem (iid : Nat) (nm : Str) (s : DirSt)
    (hmem : ∃ i, i ∈ s.instances ∧ i.instanceId = iid) :
    setInstanceDisplayName iid nm s =
      (.ok (), { s with
        instances := s.instances.map (fun i =>
          if i.instanceId = iid then { i with displayName := nm } else i),
        events := s.events ++ [Event.setName iid nm] }) := by
  rcases hmem with ⟨i, hi, hid⟩
  unfold setInstanceDisplayName
  rw [if_pos]
  exact List.any_eq_true.mpr ⟨i, hi, decide_eq_true hid⟩

theorem stopInstance_of_mem (iid : Nat) (s : DirSt)
    (hmem : ∃ i, i ∈ s.instances ∧ i.instanceId = iid) :
    stopInstance iid s =
      (.ok (), { s with
        instances := s.instances.map (fun i =>
          if i.instanceId = iid then { i with status := ("stopped".data) } else i),
        events := s.events ++ [Event.stopInst iid] }) := by
  rcases hmem with ⟨i, hi, hid⟩
  unfold stopInstance
  rw [if_pos]
  exact List.any_eq_true.mpr ⟨i, hi, decide_eq_true hid⟩

theorem startInstance_ok {iid : Nat} {s s' : DirSt} {u : Unit}
    (h : startInstance iid s = (.ok u, s')) :
    s' = { s with
      instances := s.instances.map (fun i =>
        if i.instanceId = iid then { i with status := ("running".data) } else i),
      events := s.events ++ [Event.startInst iid] } := by
  unfold startInstance at h
  split at h
  · exact (congrArg Prod.snd h).symm
  · have := congrArg Prod.fst h
    simp at this

/-- Point lookup after an id-keyed field rewrite: the lookup yields the
rewritten version of the instance found before. -/
theorem find?_after_idUpdate {l : List ContaboInstance} {iid : Nat} {i1 : ContaboInstance}
    (g : ContaboInstance → ContaboInstance) (hg : ∀ i, (g i).instanceId = i.instanceId)
    (h : (l.map (fun i => if i.instanceId = iid then g i else i)).find?
      (fun i => decide (i.instanceId = iid)) = some i1) :
    ∃ i0, l.find? (fun i => decide (i.instanceId = iid)) = some i0 ∧
      i0.instanceId = iid ∧ i1 = g i0 := by
  rw [find?_map_idUpdate l iid g hg] at h
  cases hf : l.find? (fun i => decide (i.instanceId = iid)) with
  | none =>
    rw [hf] at h
    exact absurd h (by simp)
  | some i0 =>
    rw [hf] at h
    have hid : i0.instanceId = iid := by simpa using List.find?_some hf
    simp only [Option.map_some'] at h
    rw [if_pos hid] at h
    exact ⟨i0, rfl, hid, (Option.some_injective _ h).symm⟩

/-- Behaviour of the tail of `ensureInstance` after a candidate `inst0` has
been produced: the ownership display name is written, the instance re-read
(and started if needed), and the returned snapshot is exactly the directory's
current record of that instance, carrying the written display name. -/
theorem ensureInstance_tail_spec (opts : EnsureInstanceOptions) (inst0 : ContaboInstance)
    {s1 s' : DirSt} {inst : ContaboInstance}
    (h : ((setInstanceDisplayName inst0.instanceId (opts.displayName inst0.instanceId)) >>= (fun _ =>
      (getInstance inst0.instanceId) >>= (fun inst1 =>
        if inst1.status ≠ ("running".data) then
          (startInstance inst1.instanceId) >>= (fun _ => getInstance inst1.instanceId)
        else pure inst1))) s1 = (.ok inst, s')) :
    s'.instances.find? (fun i => decide (i.instanceId = inst.instanceId)) = some inst ∧
    inst.displayName = opts.displayName inst0.instanceId ∧
    inst.instanceId = inst0.instanceId := by
  rcases hs : setInstanceDisplayName inst0.instanceId (opts.displayName inst0.instanceId) s1
    with ⟨r1, s2⟩
  cases r1 with
  | error e =>
    rw [bind_apply_error hs] at h
    have := congrArg Prod.fst h
    simp at this
  | ok u =>
    rw [bind_apply_ok hs] at h
    have hs2 := setInstanceDisplayName_ok hs
    rcases hg : getInstance inst0.instanceId s2 with ⟨r2, s3⟩
    cases r2 with
    | error e =>
      rw [bind_apply_error hg] at h
      have := congrArg Prod.fst h
      simp at this
    | ok inst1 =>
      rw [bind_apply_ok hg] at h
      obtain ⟨hs3, hfind2, hid1⟩ := getInstance_ok_spec hg
      have hfind2' : (s1.instances.map (fun i =>
          if i.instanceId = inst0.instanceId then
            { i with displayName := opts.displayName inst0.instanceId } else i)).find?
          (fun i => decide (i.instanceId = inst0.instanceId)) = some inst1 := by
        rw [← hfind2, hs2]
      obtain ⟨orig, horig, _, hinst1⟩ := find?_after_idUpdate
        (fun i => { i with displayName := opts.displayName inst0.instanceId })
        (fun _ => rfl) hfind2'
      have hname1 : inst1.displayName = opts.displayName inst0.instanceId := by
        rw [hinst1]
      by_cases hrun : inst1.status ≠ ("running".data)
      · rw [if_pos hrun] at h
        rcases hst : startInstance inst1.instanceId s3 with ⟨r3, s4⟩
        cases r3 with
        | error e =>
          rw [bind_apply_error hst] at h
          have := congrArg Prod.fst h
          simp at this
        | ok u2 =>
          rw [bind_apply_ok hst] at h
          have hs4 := startInstance_ok hst
          obtain ⟨hs5, hfind4, hid4⟩ := getInstance_ok_spec h
          refine ⟨?_, ?_, ?_⟩
          · rw [hs5, hid4, hid1]
            rw [hid1] at hfind4
            exact hfind4
          · have hfind4' : (s3.instances.map (fun i =>
                if i.instanceId = inst1.instanceId then
                  { i with status := ("running".data) } else i)).find?
                (fun i => decide (i.instanceId = inst1.instanceId)) = some inst := by
              rw [← hfind4, hs4]
            obtain ⟨orig2, horig2, _, hinst⟩ := find?_after_idUpdate
              (fun i => { i with status := ("running".data) })
              (fun _ => rfl) hfind4'
            have horig2' : orig2 = inst1 := by
              rw [hs3, hid1] at horig2
              rw [horig2] at hfind2
              exact Option.some_injective _ hfind2
            rw [hinst, horig2']
            exact hname1
          · rw [hid4, hid1]
      · rw [if_neg hrun] at h
        have h' : ((.ok inst1, s3) : Except PErr ContaboInstance × DirSt) = (.ok inst, s') :=
          h
        have hinst : inst1 = inst := by
          have := congrArg Prod.fst h'
          simpa using this
        have hst : s3 = s' := congrArg Prod.snd h'
        refine ⟨?_, ?_, ?_⟩
        · rw [← hst, hs3, ← hinst, hid1]
          exact hfind2
        · rw [← hinst]
          exact hname1
        · rw [← hinst]
          exact hid1

/-- Success of `ensureInstance`: the returned instance snapshot is the
directory's current record of that instance (in particular the instance
exists), and it carries the ownership display name that was written for it.
No display-name read-back comparison is performed on the way. -/
theorem ensureInstance_ok_spec {opts : EnsureInstanceOptions} {s s' : DirSt}
    {inst : ContaboInstance} (h : ensureInstance opts s = (.ok inst, s')) :
    s'.instances.find? (fun i => decide (i.instanceId = inst.instanceId)) = some inst ∧
    inst.displayName = opts.displayName inst.instanceId := by
  unfold ensureInstance at h
  rcases hp : paginateFindInstance (ensureInstanceScanCondition opts) 100 s with ⟨r0, s0⟩
  cases r0 with
  | error e =>
    rw [bind_apply_error hp] at h
    have := congrArg Prod.fst h
    simp at this
  | ok found =>
    rw [bind_apply_ok hp] at h
    cases found with
    | some i =>
      rw [bind_apply_ok (pure_apply i s0)] at h
      obtain ⟨h1, h2, h3⟩ := ensureInstance_tail_spec opts i h
      rw [← h3] at h2
      exact ⟨h1, h2⟩
    | none =>
      by_cases hman : opts.provisioning ≠ ("auto".data)
      · rw [if_pos hman] at h
        rw [bind_apply_error (throwP_apply _ s0)] at h
        have := congrArg Prod.fst h
        simp at this
      · rw [if_neg hman] at h
        have hinner := bind_apply_ok (createInstance_apply opts.productId opts.sshKeys
          ("provisioning...".data) ubuntuImageId s0) (fun newId => getInstance newId)
        rcases hg : getInstance s0.nextId
            { s0 with
              instances := s0.instances ++ [{
                instanceId := s0.nextId, displayName := ("provisioning...".data),
                productId := opts.productId, imageId := ubuntuImageId,
                sshKeys := opts.sshKeys, status := ("running".data),
                cancelDate := [], errorMessage := [], dataCenter := [],
                name := ("vmi".data) ++ natRepr s0.nextId,
                ipv4 := ("ip".data) ++ natRepr s0.nextId }],
              nextId := s0.nextId + 1,
              events := s0.events ++ [Event.createInst s0.nextId] } with ⟨rg, sg⟩
        cases rg with
        | error e =>
          rw [bind_apply_error (hinner.trans hg)] at h
          have := congrArg Prod.fst h
          simp at this
        | ok inst0 =>
          rw [bind_apply_ok (hinner.trans hg)] at h
          obtain ⟨h1, h2, h3⟩ := ensureInstance_tail_spec opts inst0 h
          rw [← h3] at h2
          exact ⟨h1, h2⟩

/-! ### Idempotent deprovisioning (claim C4) -/

theorem tryIgnore_apply (x : ProvM α) (s : DirSt) :
    ∃ s2, tryIgnore x s = (.ok (), s2) := by
  unfold tryIgnore tryCatchP
  rcases h : (x >>= fun _ => pure ()) s with ⟨r, s2⟩
  cases r with
  | ok u => exact ⟨s2, rfl⟩
  | error e => exact ⟨s2, rfl⟩

theorem tryIgnore_snd (x : ProvM α) (s : DirSt) : (tryIgnore x s).2 = ((x s).2) := by
  unfold tryIgnore tryCatchP
  rcases h : x s with ⟨r, s2⟩
  rw [bind_apply, h]
  cases r <;> rfl

/-- Both calls of `deprovisionNode` are wrapped in catch-alls, so it always
succeeds. -/
theorem deprovisionNode_ok (clusterId nodeId : Str) (s : DirSt) :
    ∃ s', deprovisionNode clusterId nodeId s = (.ok (), s') := by
  unfold deprovisionNode
  rcases tryIgnore_apply (unassignTag (clusterMarker clusterId) ("instance".data) nodeId) s
    with ⟨s1, h1⟩
  rw [bind_apply_ok h1]
  exact tryIgnore_apply _ s1

theorem cleared_after_setEmpty (l : List ContaboInstance) (iid : Nat) :
    ∀ i ∈ l.map (fun i =>
        if i.instanceId = iid then { i with displayName := ([] : Str) } else i),
      i.instanceId = iid → i.displayName = [] := by
  intro i hi hid
  rcases List.mem_map.mp hi with ⟨i0, _, hup⟩
  by_cases h0 : i0.instanceId = iid
  · rw [if_pos h0] at hup
    rw [← hup]
  · rw [if_neg h0] at hup
    rw [← hup] at hid
    exact absurd hid h0

theorem cleared_map_update (l : List ContaboInstance) (iid : Nat)
    (g : ContaboInstance → ContaboInstance)
    (_hgid : ∀ i, (g i).instanceId = i.instanceId)
    (hgnm : ∀ i, (g i).displayName = i.displayName)
    (h : ∀ i ∈ l, i.instanceId = iid → i.displayName = []) :
    ∀ i ∈ l.map (fun i => if i.instanceId = iid then g i else i),
      i.instanceId = iid → i.displayName = [] := by
  intro i hi hid
  rcases List.mem_map.mp hi with ⟨i0, hi0, hup⟩
  by_cases h0 : i0.instanceId = iid
  · rw [if_pos h0] at hup
    rw [← hup, hgnm i0]
    exact h i0 hi0 h0
  · rw [if_neg h0] at hup
    rw [← hup] at hid ⊢
    exact h i0 hi0 hid

/-- After one `deprovisionNode` call, every instance whose id is the parsed
node id has an empty display name (it is unclaimed). -/
theorem deprovisionNode_clears (clusterId nodeId : Str) (s : DirSt) :
    ∀ inst ∈ ((deprovisionNode clusterId nodeId s).2).instances,
      parseIntJS nodeId = some inst.instanceId → inst.displayName = [] := by
  unfold deprovisionNode
  rcases tryIgnore_apply (unassignTag (clusterMarker clusterId) ("instance".data) nodeId) s
    with ⟨s1, h1⟩
  rw [bind_apply_ok h1]
  cases hparse : parseIntJS nodeId with
  | none =>
    intro inst _ hp
    exact absurd hp (by simp)
  | some iid =>
    intro inst hmem hp
    have hiid : iid = inst.instanceId := Option.some_injective _ hp
    change inst ∈ (tryIgnore (resetInstance iid) s1).2.instances at hmem
    rw [tryIgnore_snd] at hmem
    revert hmem
    unfold resetInstance
    rcases hsn : setInstanceDisplayName iid [] s1 with ⟨r1, s2⟩
    cases r1 with
    | ok u =>
      rw [bind_apply_ok hsn, tryIgnore_snd]
      have hs2 := setInstanceDisplayName_ok hsn
      have hcleared2 : ∀ i ∈ s2.instances, i.instanceId = iid → i.displayName = [] := by
        rw [hs2]
        exact cleared_after_setEmpty s1.instances iid
      unfold stopInstance
      intro hmem
      split at hmem
      · simp only at hmem
        exact cleared_map_update s2.instances iid
          (fun i => { i with status := ("stopped".data) }) (fun _ => rfl) (fun _ => rfl)
          hcleared2 inst hmem hiid.symm
      · exact hcleared2 inst hmem hiid.symm
    | error e =>
      rw [bind_apply_error hsn]
      have hs2 : s2 = s1 := by
        unfold setInstanceDisplayName at hsn
        split at hsn
        · have := congrArg Prod.fst hsn
          simp at this
        · exact (congrArg Prod.snd hsn).symm
      have hany : s1.instances.any (fun i => decide (i.instanceId = iid)) = false := by
        unfold setInstanceDisplayName at hsn
        split at hsn
        · have := congrArg Prod.fst hsn
          simp at this
        · rename_i hcond
          simpa using hcond
      intro hmem
      rw [hs2] at hmem
      have hno : ¬ (inst.instanceId = iid) := by
        intro hh
        have hyes : s1.instances.any (fun i => decide (i.instanceId = iid)) = true :=
          List.any_eq_true.mpr ⟨inst, hmem, decide_eq_true hh⟩
        rw [hany] at hyes
        exact absurd hyes (by simp)
      exact absurd hiid.symm hno

/-- C4: a second `deprovisionNode` on the same node id after a first call
produces no error, and afterwards the underlying instance is unclaimed (its
display name is the empty string). -/
theorem claim_C4 (clusterId nodeId : Str) (s : DirSt) :
    (deprovisionNode clusterId nodeId ((deprovisionNode clusterId nodeId s).2)).1 = .ok () ∧
    ∀ inst ∈ ((deprovisionNode clusterId nodeId ((deprovisionNode clusterId nodeId s).2)).2).instances,
      parseIntJS nodeId = some inst.instanceId → inst.displayName = [] := by
  constructor
  · rcases deprovisionNode_ok clusterId nodeId ((deprovisionNode clusterId nodeId s).2)
      with ⟨s', h⟩
    rw [h]
  · exact deprovisionNode_clears clusterId nodeId ((deprovisionNode clusterId nodeId s).2)

theorem logEvent_apply (e : Event) (s : DirSt) :
    logEvent e s = (.ok (), { s with events := s.events ++ [e] }) := rfl

theorem getDir_apply (s : DirSt) : getDir s = (.ok s, s) := rfl

theorem keepsIds_provisionLoop (clusterId sshPublicKey : Str)
    (check : Node → List Node → Option CheckErrData) :
    ∀ fuel, KeepsIds (provisionLoop clusterId sshPublicKey check fuel) := by
  intro fuel
  induction fuel with
  | zero => exact keepsIds_throwP _
  | succ n ih =>
    simp only [provisionLoop]
    apply keepsIds_bind (keepsIds_of_keepsInstances (keepsInstances_ensureSshKey _ _))
    intro keyId
    apply keepsIds_bind (keepsIds_ensureInstance _ rfl)
    intro inst
    apply keepsIds_bind (keepsIds_of_keepsInstances (keepsInstances_assignTag _ _ _))
    intro _
    apply keepsIds_bind (keepsIds_of_keepsInstances keepsInstances_getDir)
    intro s
    cases check (transformInstanceToNode clusterId inst)
        (peersOf s clusterId (transformInstanceToNode clusterId inst)) with
    | none =>
      exact keepsIds_bind (keepsIds_of_keepsInstances (keepsInstances_logEvent _)) (fun _ =>
        keepsIds_bind (keepsIds_of_keepsInstances (keepsInstances_logEvent _))
          (fun _ => keepsIds_pure _))
    | some ce =>
      exact keepsIds_bind (keepsIds_of_keepsInstances (keepsInstances_logEvent _)) (fun _ =>
        keepsIds_bind (keepsIds_tryIgnore (keepsIds_setInstanceDisplayName _ _)) (fun _ =>
          keepsIds_bind (keepsIds_tryIgnore (keepsIds_resetInstance _)) (fun _ => ih)))

theorem keepsIds_provisionNode (clusterId sshPublicKey : Str)
    (check : Node → List Node → Option CheckErrData) :
    KeepsIds (provisionNode clusterId sshPublicKey check) :=
  keepsIds_provisionLoop clusterId sshPublicKey check 3

/-- Success of the provisioning loop: the returned node is the transform of an
instance whose directory record, in the final state, carries the ownership
display name written for the requested cluster. -/
theorem provisionLoop_ok_spec (clusterId sshPublicKey : Str)
    (check : Node → List Node → Option CheckErrData) :
    ∀ fuel (s s' : DirSt) (node : Node),
      provisionLoop clusterId sshPublicKey check fuel s = (.ok node, s') →
      ∃ inst : ContaboInstance,
        node = transformInstanceToNode clusterId inst ∧
        s'.instances.find? (fun i => decide (i.instanceId = inst.instanceId)) = some inst ∧
        inst.displayName = provisionDisplayName clusterId inst.instanceId := by
  intro fuel
  induction fuel with
  | zero =>
    intro s s' node h
    simp only [provisionLoop, throwP] at h
    have := congrArg Prod.fst h
    simp at this
  | succ n ih =>
    intro s s' node h
    simp only [provisionLoop] at h
    rcases h1 : ensureSshKey (clusterMarker clusterId) sshPublicKey s with ⟨r1, s1⟩
    cases r1 with
    | error e =>
      rw [bind_apply_error h1] at h
      have := congrArg Prod.fst h
      simp at this
    | ok keyId =>
      rw [bind_apply_ok h1] at h
      rcases h2 : ensureInstance
          { provisioning := ("manual".data), displayName := provisionDisplayName clusterId,
            sshKeys := [keyId], productId := ("V78".data) } s1 with ⟨r2, s2⟩
      cases r2 with
      | error e =>
        rw [bind_apply_error h2] at h
        have := congrArg Prod.fst h
        simp at this
      | ok inst =>
        rw [bind_apply_ok h2] at h
        obtain ⟨hfind, hname⟩ := ensureInstance_ok_spec h2
        have hname' : inst.displayName = provisionDisplayName clusterId inst.instanceId := hname
        rcases h3 : assignTag (clusterMarker clusterId) ("instance".data)
            (natRepr inst.instanceId) s2 with ⟨r3, s3⟩
        cases r3 with
        | error e =>
          rw [bind_apply_error h3] at h
          have := congrArg Prod.fst h
          simp at this
        | ok tagId =>
          rw [bind_apply_ok h3] at h
          have hkeep3 : s3.instances = s2.instances := by
            have hk := keepsInstances_assignTag (clusterMarker clusterId) ("instance".data)
              (natRepr inst.instanceId) s2
            rw [h3] at hk
            exact hk
          rw [bind_apply_ok (getDir_apply s3)] at h
          cases hchk : check (transformInstanceToNode clusterId inst)
              (peersOf s3 clusterId (transformInstanceToNode clusterId inst)) with
          | none =>
            simp only [hchk] at h
            rw [bind_apply_ok (logEvent_apply _ s3)] at h
            rw [bind_apply_ok (logEvent_apply _ _)] at h
            rw [pure_apply, Prod.mk.injEq] at h
            obtain ⟨hfst, hsnd⟩ := h
            have hnode : node = transformInstanceToNode clusterId inst := by
              injection hfst with hh
              exact hh.symm
            refine ⟨inst, hnode, ?_, hname'⟩
            have hfind3 : s3.instances.find?
                (fun i => decide (i.instanceId = inst.instanceId)) = some inst := by
              rw [hkeep3]
              exact hfind
            rw [← hsnd]
            exact hfind3
          | some ce =>
            simp only [hchk] at h
            rw [bind_apply_ok (logEvent_apply _ s3)] at h
            rcases tryIgnore_apply (setInstanceDisplayName inst.instanceId
                (failMarker inst.instanceId ce))
                { s3 with events := s3.events ++ [Event.checkFailed inst.instanceId ce] }
              with ⟨sB, hB⟩
            rw [bind_apply_ok hB] at h
            rcases tryIgnore_apply (resetInstance inst.instanceId) sB with ⟨sC, hC⟩
            rw [bind_apply_ok hC] at h
            exact ih sC s' node h

/-! ### Substring membership and the cluster marker (claim C7)

`listNodes` decides cluster membership by a substring test for
`cluster=<id>`.  Because a provisioned instance's display name is
`<digits> cluster=<id>` and contains exactly one `=` character, an occurrence
of `cluster=Y` inside it must align with the real marker, so it exists exactly
when `Y` is a prefix of the owning cluster id. -/

theorem append_singleton_inj {α : Type} [DecidableEq α] {a : α} :
    ∀ (d u t1 t2 : List α), a ∉ d → a ∉ u → d ++ a :: t1 = u ++ a :: t2 →
      d = u ∧ t1 = t2 := by
  intro d
  induction d with
  | nil =>
    intro u t1 t2 _ hu h
    cases u with
    | nil =>
      simp only [List.nil_append] at h
      exact ⟨rfl, by injection h⟩
    | cons b u' =>
      simp only [List.nil_append, List.cons_append] at h
      have hb : a = b := by injection h
      exact absurd (hb ▸ List.mem_cons_self b u') hu
  | cons c d' ih =>
    intro u t1 t2 hd hu h
    cases u with
    | nil =>
      simp only [List.cons_append, List.nil_append] at h
      have hb : c = a := by injection h
      exact absurd (hb ▸ List.mem_cons_self c d') hd
    | cons b u' =>
      simp only [List.cons_append] at h
      have hcb : c = b := by injection h
      have htail : d' ++ a :: t1 = u' ++ a :: t2 := by injection h
      have hd' : a ∉ d' := fun hm => hd (List.mem_cons_of_mem c hm)
      have hu' : a ∉ u' := fun hm => hu (List.mem_cons_of_mem b hm)
      obtain ⟨h1, h2⟩ := ih u' t1 t2 hd' hu' htail
      exact ⟨by rw [hcb, h1], h2⟩

/-- If `cluster=Y` occurs as a substring of `d ++ cluster= ++ X`, where
neither `d` nor `X` contains the `=` character, then `Y` is a prefix of `X`. -/
theorem marker_infix_iff_pre {d X Y : Str} (hd : '=' ∉ d) (hX : '=' ∉ X)
    (h : (("cluster=".data) ++ Y) <:+: (d ++ ("cluster=".data) ++ X)) : Y <+: X := by
  obtain ⟨u, v, huv⟩ := h
  have hcl : ("cluster=".data : Str) = ("cluster".data) ++ ['='] := rfl
  have hcount : ('=' ∉ u) ∧ ('=' ∉ v) ∧ (List.count '=' Y = 0) := by
    have hc := congrArg (List.count '=') huv
    simp only [List.count_append] at hc
    have hcd : List.count '=' d = 0 := List.count_eq_zero.mpr hd
    have hcX : List.count '=' X = 0 := List.count_eq_zero.mpr hX
    have hcm : List.count '=' (("cluster=".data : Str)) = 1 := by decide
    rw [hcd, hcX, hcm] at hc
    refine ⟨List.count_eq_zero.mp ?_, List.count_eq_zero.mp ?_, ?_⟩ <;> omega
  obtain ⟨hu, _, hYc⟩ := hcount
  have hassoc : (u ++ ("cluster".data)) ++ '=' :: (Y ++ v) =
      (d ++ ("cluster".data)) ++ '=' :: X := by
    calc (u ++ ("cluster".data)) ++ '=' :: (Y ++ v)
        = u ++ ((("cluster".data) ++ ['=']) ++ Y) ++ v := by simp
      _ = u ++ ((("cluster=".data)) ++ Y) ++ v := by rw [← hcl]
      _ = d ++ ("cluster=".data) ++ X := huv
      _ = (d ++ ("cluster".data)) ++ '=' :: X := by rw [hcl]; simp
  have hdn : '=' ∉ (d ++ ("cluster".data) : Str) := by
    intro hm
    rcases List.mem_append.mp hm with hm | hm
    · exact hd hm
    · exact absurd hm (by decide)
  have hun : '=' ∉ (u ++ ("cluster".data) : Str) := by
    intro hm
    rcases List.mem_append.mp hm with hm | hm
    · exact hu hm
    · exact absurd hm (by decide)
  obtain ⟨_, h2⟩ := append_singleton_inj (u ++ ("cluster".data)) (d ++ ("cluster".data))
    (Y ++ v) X hun hdn hassoc
  exact ⟨v, h2⟩

/-- The provisioned display name, reassociated to expose the marker. -/
theorem provisionDisplayName_shape (clusterId : Str) (iid : Nat) :
    provisionDisplayName clusterId iid =
      (natRepr iid ++ [' ']) ++ ("cluster=".data) ++ clusterId := by
  unfold provisionDisplayName clusterMarker
  simp

/-- The marker of a non-prefix cluster id does not occur in a provisioned
display name. -/
theorem marker_not_in_provisionDisplayName {X Y : Str} (iid : Nat)
    (hX : '=' ∉ X) (hpre : ¬ (Y <+: X)) :
    strIncludes (provisionDisplayName X iid) (clusterMarker Y) = false := by
  rw [Bool.eq_false_iff]
  intro htrue
  have hinf : (("cluster=".data) ++ Y) <:+: (provisionDisplayName X iid) := by
    have := of_decide_eq_true htrue
    exact this
  rw [provisionDisplayName_shape] at hinf
  have hd : '=' ∉ (natRepr iid ++ [' '] : Str) := by
    intro hm
    rcases List.mem_append.mp hm with hm | hm
    · exact natRepr_no_eq iid hm
    · exact absurd hm (by decide)
  exact hpre (marker_infix_iff_pre hd hX hinf)

/-- The owning cluster's marker does occur in a provisioned display name. -/
theorem marker_in_provisionDisplayName (X : Str) (iid : Nat) :
    strIncludes (provisionDisplayName X iid) (clusterMarker X) = true := by
  apply decide_eq_true
  rw [provisionDisplayName_shape]
  exact ⟨natRepr iid ++ [' '], [], by simp [clusterMarker]⟩

/-! ### Verification-failure handling in `provisionNode` (claim C2) -/

/-- Number of `checkFailed` events in a trace: one per claim attempt whose
verification failed. -/
def countCF : List Event → Nat
  | [] => 0
  | Event.checkFailed _ _ :: rest => countCF rest + 1
  | _ :: rest => countCF rest

theorem countCF_append (a b : List Event) : countCF (a ++ b) = countCF a + countCF b := by
  induction a with
  | nil => simp [countCF]
  | cons e rest ih =>
    cases e <;> simp [countCF, ih] <;> omega

theorem countCF_of_cf_free {d : List Event}
    (h : ∀ iid ce, Event.checkFailed iid ce ∉ d) : countCF d = 0 := by
  induction d with
  | nil => rfl
  | cons e rest ih =>
    have hrest : ∀ iid ce, Event.checkFailed iid ce ∉ rest :=
      fun iid ce hm => h iid ce (List.mem_cons_of_mem e hm)
    cases e with
    | checkFailed iid ce => exact absurd (List.mem_cons_self _ _) (h iid ce)
    | _ => simp [countCF, ih hrest]

theorem tryIgnore_of_ok {x : ProvM α} {s s' : DirSt} {a : α} (h : x s = (.ok a, s')) :
    tryIgnore x s = (.ok (), s') := by
  unfold tryIgnore tryCatchP
  rw [bind_apply, h]

theorem mem_id_map_update {l : List ContaboInstance} {iid : Nat}
    (g : ContaboInstance → ContaboInstance) (hg : ∀ i, (g i).instanceId = i.instanceId)
    (h : ∃ i, i ∈ l ∧ i.instanceId = iid) :
    ∃ i, i ∈ l.map (fun i => if i.instanceId = iid then g i else i) ∧ i.instanceId = iid := by
  rcases h with ⟨i, hi, hid⟩
  refine ⟨if i.instanceId = iid then g i else i, List.mem_map_of_mem _ hi, ?_⟩
  rw [if_pos hid, hg i, hid]

/-- Behaviour of the provisioning loop with respect to verification failures:
(1) a returned node passed its verification; (2) the loop makes at most
`fuel` verification attempts, and every failed attempt writes the failure
marker into the candidate's display name and then clears it (releasing the
instance to the pool); (3) if verification always fails, the loop ends in an
error, never in a node. -/
theorem provisionLoop_spec (cid key : Str) (check : Node → List Node → Option CheckErrData) :
    ∀ fuel (s : DirSt),
      (∀ node, (provisionLoop cid key check fuel s).1 = .ok node →
          ∃ peers, check node peers = none) ∧
      (∃ d, ((provisionLoop cid key check fuel s).2).events = s.events ++ d ∧
          countCF d ≤ fuel ∧
          ∀ iid ce, Event.checkFailed iid ce ∈ d →
            List.Sublist [Event.checkFailed iid ce, Event.setName iid (failMarker iid ce),
              Event.setName iid []] d) ∧
      ((∀ node peers, (check node peers).isSome = true) →
          ∃ e, (provisionLoop cid key check fuel s).1 = .error e) := by
  intro fuel
  induction fuel with
  | zero =>
    intro s
    refine ⟨?_, ⟨[], by simp [provisionLoop, throwP], by simp [countCF], by simp⟩, ?_⟩
    · intro node h
      simp [provisionLoop, throwP] at h
    · intro _
      exact ⟨.msg ("Node provisioning failed after 3 retries".data), rfl⟩
  | succ n ih =>
    intro s
    rcases h1 : ensureSshKey (clusterMarker cid) key s with ⟨r1, s1⟩
    rcases evGood_ensureSshKey (clusterMarker cid) key s with ⟨d1, hd1, hf1⟩
    simp only [h1] at hd1
    cases r1 with
    | error e =>
      have hres : provisionLoop cid key check (n + 1) s = (.error e, s1) := by
        simp only [provisionLoop]
        rw [bind_apply_error h1]
      refine ⟨?_, ⟨d1, by rw [hres]; exact hd1, ?_, ?_⟩, ?_⟩
      · intro node h
        rw [hres] at h
        simp at h
      · rw [countCF_of_cf_free hf1]
        omega
      · intro iid ce hm
        exact absurd hm (hf1 iid ce)
      · intro _
        exact ⟨e, by rw [hres]⟩
    | ok keyId =>
      rcases h2 : ensureInstance
          { provisioning := ("manual".data), displayName := provisionDisplayName cid,
            sshKeys := [keyId], productId := ("V78".data) } s1 with ⟨r2, s2⟩
      rcases evGood_ensureInstance
          { provisioning := ("manual".data), displayName := provisionDisplayName cid,
            sshKeys := [keyId], productId := ("V78".data) } s1 with ⟨d2, hd2, hf2⟩
      simp only [h2] at hd2
      cases r2 with
      | error e =>
        have hres : provisionLoop cid key check (n + 1) s = (.error e, s2) := by
          simp only [provisionLoop]
          rw [bind_apply_ok h1, bind_apply_error h2]
        refine ⟨?_, ⟨d1 ++ d2, by rw [hres, hd2, hd1, List.append_assoc], ?_, ?_⟩, ?_⟩
        · intro node h
          rw [hres] at h
          simp at h
        · rw [countCF_append, countCF_of_cf_free hf1, countCF_of_cf_free hf2]
          omega
        · intro iid ce hm
          rcases List.mem_append.mp hm with hm | hm
          exacts [absurd hm (hf1 iid ce), absurd hm (hf2 iid ce)]
        · intro _
          exact ⟨e, by rw [hres]⟩
      | ok inst =>
        obtain ⟨hfind, _⟩ := ensureInstance_ok_spec h2
        rcases h3 : assignTag (clusterMarker cid) ("instance".data)
            (natRepr inst.instanceId) s2 with ⟨r3, s3⟩
        rcases evGood_assignTag (clusterMarker cid) ("instance".data)
            (natRepr inst.instanceId) s2 with ⟨d3, hd3, hf3⟩
        simp only [h3] at hd3
        cases r3 with
        | error e =>
          have hres : provisionLoop cid key check (n + 1) s = (.error e, s3) := by
            simp only [provisionLoop]
            rw [bind_apply_ok h1, bind_apply_ok h2, bind_apply_error h3]
          refine ⟨?_, ⟨d1 ++ (d2 ++ d3), by rw [hres, hd3, hd2, hd1]; simp, ?_, ?_⟩, ?_⟩
          · intro node h
            rw [hres] at h
            simp at h
          · rw [countCF_append, countCF_append, countCF_of_cf_free hf1,
              countCF_of_cf_free hf2, countCF_of_cf_free hf3]
            omega
          · intro iid ce hm
            rcases List.mem_append.mp hm with hm | hm
            · exact absurd hm (hf1 iid ce)
            · rcases List.mem_append.mp hm with hm | hm
              exacts [absurd hm (hf2 iid ce), absurd hm (hf3 iid ce)]
          · intro _
            exact ⟨e, by rw [hres]⟩
        | ok tagId =>
          have hinst3 : s3.instances = s2.instances := by
            have hk := keepsInstances_assignTag (clusterMarker cid) ("instance".data)
              (natRepr inst.instanceId) s2
            rw [h3] at hk
            exact hk
          cases hchk : check (transformInstanceToNode cid inst)
              (peersOf s3 cid (transformInstanceToNode cid inst)) with
          | none =>
            have hres : provisionLoop cid key check (n + 1) s =
                (.ok (transformInstanceToNode cid inst),
                 { s3 with events := (s3.events ++ [Event.checkPassed inst.instanceId]) ++
                     [Event.sshRun (transformInstanceToNode cid inst).publicIp
                       ("sudo killall apt-get || true".data)] }) := by
              simp only [provisionLoop]
              rw [bind_apply_ok h1, bind_apply_ok h2, bind_apply_ok h3,
                bind_apply_ok (getDir_apply s3)]
              simp only [hchk]
              rw [bind_apply_ok (logEvent_apply _ s3), bind_apply_ok (logEvent_apply _ _),
                pure_apply]
            refine ⟨?_, ?_, ?_⟩
            · intro node h
              rw [hres] at h
              simp only at h
              have hnode : transformInstanceToNode cid inst = node := by
                injection h
              exact ⟨peersOf s3 cid (transformInstanceToNode cid inst), by rw [← hnode]; exact hchk⟩
            · refine ⟨d1 ++ (d2 ++ (d3 ++ [Event.checkPassed inst.instanceId,
                Event.sshRun (transformInstanceToNode cid inst).publicIp
                  ("sudo killall apt-get || true".data)])), ?_, ?_, ?_⟩
              · rw [hres]
                simp only
                rw [hd3, hd2, hd1]
                simp
              · rw [countCF_append, countCF_append, countCF_append,
                  countCF_of_cf_free hf1, countCF_of_cf_free hf2, countCF_of_cf_free hf3]
                simp [countCF]
              · intro iid ce hm
                rcases List.mem_append.mp hm with hm | hm
                · exact absurd hm (hf1 iid ce)
                · rcases List.mem_append.mp hm with hm | hm
                  · exact absurd hm (hf2 iid ce)
                  · rcases List.mem_append.mp hm with hm | hm
                    · exact absurd hm (hf3 iid ce)
                    · simp at hm
            · intro hfail
              have := hfail (transformInstanceToNode cid inst)
                (peersOf s3 cid (transformInstanceToNode cid inst))
              rw [hchk] at this
              simp at this
          | some ce =>
            have hmemA : ∃ i, i ∈ s3.instances ∧ i.instanceId = inst.instanceId := by
              rw [hinst3]
              exact ⟨inst, List.mem_of_find?_eq_some hfind, rfl⟩
            set sA : DirSt :=
              { s3 with events := s3.events ++ [Event.checkFailed inst.instanceId ce] }
              with hsA
            have hmemA' : ∃ i, i ∈ sA.instances ∧ i.instanceId = inst.instanceId := hmemA
            have hsetB := setInstanceDisplayName_of_mem inst.instanceId
              (failMarker inst.instanceId ce) sA hmemA'
            set sB : DirSt :=
              { sA with
                instances := sA.instances.map (fun i =>
                  if i.instanceId = inst.instanceId then
                    { i with displayName := failMarker inst.instanceId ce } else i),
                events := sA.events ++
                  [Event.setName inst.instanceId (failMarker inst.instanceId ce)] }
              with hsB
            have hB := tryIgnore_of_ok hsetB
            have hmemB : ∃ i, i ∈ sB.instances ∧ i.instanceId = inst.instanceId := by
              rw [hsB]
              exact mem_id_map_update _ (fun _ => rfl) hmemA'
            have hsetC := setInstanceDisplayName_of_mem inst.instanceId [] sB hmemB
            set sC1 : DirSt :=
              { sB with
                instances := sB.instances.map (fun i =>
                  if i.instanceId = inst.instanceId then
                    { i with displayName := ([] : Str) } else i),
                events := sB.events ++ [Event.setName inst.instanceId []] }
              with hsC1
            have hmemC : ∃ i, i ∈ sC1.instances ∧ i.instanceId = inst.instanceId := by
              rw [hsC1]
              exact mem_id_map_update _ (fun _ => rfl) hmemB
            have hstop := stopInstance_of_mem inst.instanceId sC1 hmemC
            set sC2 : DirSt :=
              { sC1 with
                instances := sC1.instances.map (fun i =>
                  if i.instanceId = inst.instanceId then
                    { i with status := ("stopped".data) } else i),
                events := sC1.events ++ [Event.stopInst inst.instanceId] }
              with hsC2
            have hreset : resetInstance inst.instanceId sB = (.ok (), sC2) := by
              unfold resetInstance
              rw [bind_apply_ok hsetC]
              exact tryIgnore_of_ok hstop
            have hC := tryIgnore_of_ok hreset
            have hres : provisionLoop cid key check (n + 1) s =
                provisionLoop cid key check n sC2 := by
              simp only [provisionLoop]
              rw [bind_apply_ok h1, bind_apply_ok h2, bind_apply_ok h3,
                bind_apply_ok (getDir_apply s3)]
              simp only [hchk]
              rw [bind_apply_ok (logEvent_apply _ s3), ← hsA, bind_apply_ok hB,
                bind_apply_ok hC]
            have hC2ev : sC2.events = s3.events ++
                [Event.checkFailed inst.instanceId ce,
                 Event.setName inst.instanceId (failMarker inst.instanceId ce),
                 Event.setName inst.instanceId [], Event.stopInst inst.instanceId] := by
              rw [hsC2, hsC1, hsB, hsA]
              simp
            rcases ih sC2 with ⟨ih1, ⟨drec, hdrec, hcnt, hsub⟩, ih3⟩
            refine ⟨?_, ?_, ?_⟩
            · intro node h
              rw [hres] at h
              exact ih1 node h
            · refine ⟨d1 ++ (d2 ++ (d3 ++ ([Event.checkFailed inst.instanceId ce,
                Event.setName inst.instanceId (failMarker inst.instanceId ce),
                Event.setName inst.instanceId [], Event.stopInst inst.instanceId] ++ drec))),
                ?_, ?_, ?_⟩
              · rw [hres, hdrec, hC2ev, hd3, hd2, hd1]
                simp
              · rw [countCF_append, countCF_append, countCF_append, countCF_append,
                  countCF_of_cf_free hf1, countCF_of_cf_free hf2, countCF_of_cf_free hf3]
                simp only [countCF]
                omega
              · intro iid ce' hm
                have hembed : ∀ l : List Event, List.Sublist l
                    ([Event.checkFailed inst.instanceId ce,
                      Event.setName inst.instanceId (failMarker inst.instanceId ce),
                      Event.setName inst.instanceId [], Event.stopInst inst.instanceId] ++ drec) →
                    List.Sublist l (d1 ++ (d2 ++ (d3 ++ ([Event.checkFailed inst.instanceId ce,
                      Event.setName inst.instanceId (failMarker inst.instanceId ce),
                      Event.setName inst.instanceId [], Event.stopInst inst.instanceId] ++ drec)))) := by
                  intro l hl
                  exact ((hl.trans (List.sublist_append_right d3 _)).trans
                    (List.sublist_append_right d2 _)).trans (List.sublist_append_right d1 _)
                rcases List.mem_append.mp hm with hm | hm
                · exact absurd hm (hf1 iid ce')
                · rcases List.mem_append.mp hm with hm | hm
                  · exact absurd hm (hf2 iid ce')
                  · rcases List.mem_append.mp hm with hm | hm
                    · exact absurd hm (hf3 iid ce')
                    · rcases List.mem_append.mp hm with hm | hm
                      · simp only [List.mem_cons, List.mem_singleton] at hm
                        rcases hm with hm | hm | hm | hm
                        · have hiid : iid = inst.instanceId := by injection hm
                          have hce : ce' = ce := by injection hm
                          rw [hiid, hce]
                          apply hembed
                          have h34 : List.Sublist [Event.checkFailed inst.instanceId ce,
                              Event.setName inst.instanceId (failMarker inst.instanceId ce),
                              Event.setName inst.instanceId []]
                              [Event.checkFailed inst.instanceId ce,
                               Event.setName inst.instanceId (failMarker inst.instanceId ce),
                               Event.setName inst.instanceId [], Event.stopInst inst.instanceId] :=
                            List.sublist_append_left _ [Event.stopInst inst.instanceId]
                          exact h34.trans (List.sublist_append_left _ drec)
                        · exact absurd hm (by simp)
                        · exact absurd hm (by simp)
                        · exact absurd hm (by simp)
                      · have hs' := hsub iid ce' hm
                        apply hembed
                        exact hs'.trans (List.sublist_append_right _ drec)
            · intro hfail
              rcases ih3 hfail with ⟨e, he⟩
              exact ⟨e, by rw [hres]; exact he⟩

/-- C2: in every execution of `provisionNode` started with an empty event
trace, (1) a returned node is one whose verification check passed (so a
candidate failing its check is never the result); (2) at most 3 verification
attempts are made; (3) every failed attempt writes the failure marker into the
candidate's display name and then clears it, releasing the instance back to
the pool; and (4) if verification always fails, `provisionNode` throws an
error rather than returning a node. -/
theorem claim_C2 (clusterId sshPublicKey : Str)
    (check : Node → List Node → Option CheckErrData) (s : DirSt) (h0 : s.events = []) :
    (∀ node, (provisionNode clusterId sshPublicKey check s).1 = .ok node →
        ∃ peers, check node peers = none) ∧
    countCF ((provisionNode clusterId sshPublicKey check s).2).events ≤ 3 ∧
    (∀ iid ce,
        Event.checkFailed iid ce ∈ ((provisionNode clusterId sshPublicKey check s).2).events →
        List.Sublist [Event.checkFailed iid ce, Event.setName iid (failMarker iid ce),
          Event.setName iid []] ((provisionNode clusterId sshPublicKey check s).2).events) ∧
    ((∀ node peers, (check node peers).isSome = true) →
        ∃ e, (provisionNode clusterId sshPublicKey check s).1 = .error e) := by
  obtain ⟨h1, ⟨d, hd, hcnt, hsub⟩, h3⟩ := provisionLoop_spec clusterId sshPublicKey check 3 s
  have hev : ((provisionLoop clusterId sshPublicKey check 3 s).2).events = d := by
    rw [hd, h0, List.nil_append]
  unfold provisionNode
  refine ⟨h1, ?_, ?_, h3⟩
  · rw [hev]
    exact hcnt
  · intro iid ce hm
    rw [hev] at hm ⊢
    exact hsub iid ce hm

/-- C7 (amended): after `provisionNode(clusterId = X)` succeeds with node `n`
on a directory with distinct instance ids, `n.id` appears in
`listNodes(clusterId = X)`; and for every cluster id `Y` that is not a prefix
of `X` (which in particular forces `Y ≠ X`), provided `X` itself contains no
`=` character, `n.id` does not appear in `listNodes(clusterId = Y)`.  (The
unamended claim — every `Y ≠ X` — fails because membership is a substring
test: see the counterexample.) -/
theorem claim_C7 (X Y sshPublicKey : Str) (check : Node → List Node → Option CheckErrData)
    (s : DirSt) (node : Node) (s' : DirSt)
    (hnd : (s.instances.map (fun i => i.instanceId)).Nodup)
    (hX : '=' ∉ X) (hpre : ¬ (Y <+: X))
    (hrun : provisionNode X sshPublicKey check s = (.ok node, s')) :
    node.id ∈ (listNodes s' X 100).map (fun n => n.id) ∧
    node.id ∉ (listNodes s' Y 100).map (fun n => n.id) := by
  have hids : s'.instances.map (fun i => i.instanceId) =
      s.instances.map (fun i => i.instanceId) := by
    have hk := keepsIds_provisionNode X sshPublicKey check s
    rw [hrun] at hk
    exact hk
  have hnd' : (s'.instances.map (fun i => i.instanceId)).Nodup := by
    rw [hids]
    exact hnd
  unfold provisionNode at hrun
  obtain ⟨inst, hnode, hfind, hname⟩ := provisionLoop_ok_spec X sshPublicKey check 3 s s' node hrun
  have hmem : inst ∈ s'.instances := List.mem_of_find?_eq_some hfind
  have hln : ∀ Z : Str, listNodes s' Z 100 =
      (s'.instances.filter (fun i => strIncludes i.displayName (clusterMarker Z))).map
        (transformInstanceToNode Z) := by
    intro Z
    unfold listNodes
    rw [paginateFilterPure_eq_filter _ _ (by norm_num)]
  constructor
  · rw [hln X]
    apply List.mem_map.mpr
    refine ⟨transformInstanceToNode X inst, ?_, ?_⟩
    · apply List.mem_map.mpr
      refine ⟨inst, ?_, rfl⟩
      apply List.mem_filter.mpr
      refine ⟨hmem, ?_⟩
      rw [hname]
      exact marker_in_provisionDisplayName X inst.instanceId
    · rw [hnode]
  · rw [hln Y]
    intro habs
    rcases List.mem_map.mp habs with ⟨n', hn', hid'⟩
    rcases List.mem_map.mp hn' with ⟨inst', hinst', hn'eq⟩
    have hmem' : inst' ∈ s'.instances := (List.mem_filter.mp hinst').1
    have hcond' : strIncludes inst'.displayName (clusterMarker Y) = true :=
      (List.mem_filter.mp hinst').2
    have hideq : inst'.instanceId = inst.instanceId := by
      apply natRepr_injective
      have : n'.id = natRepr inst'.instanceId := by
        rw [← hn'eq]
        rfl
      rw [← this, hid', hnode]
      rfl
    have hinsteq : inst' = inst :=
      List.inj_on_of_nodup_map hnd' hmem' hmem hideq
    rw [hinsteq, hname] at hcond'
    rw [marker_not_in_provisionDisplayName inst.instanceId hX hpre] at hcond'
    exact absurd hcond' (by simp)

/-! ### Kubernetes administrator: `removeNode`
(src/core/kubernetes_administrator/abstract.ts lines 193-233 and 238-266,
src/core/utils.ts lines 463-472) -/

/-- JavaScript `stdout.split(" ")` on a single-character separator: consecutive
separators yield empty fields, and the empty string splits to `[""]`. -/
def splitSpaceCore : List Char → List Char → List Str
  | [], acc => [acc.reverse]
  | c :: rest, acc =>
      if c = ' ' then acc.reverse :: splitSpaceCore rest []
      else splitSpaceCore rest (c :: acc)

def strSplitSpace (s : Str) : List Str := splitSpaceCore s []

/-- Administrator-layer `executeSSH(host, command)` with the default zero
retries: the outcome is an oracle of the host and command (the administrator
only reads remote state through it); failures are wrapped like
`executeSSH`'s catch does, and the attempt is recorded as a ghost event. -/
def adminSSH (ssh : Str → Str → Except Str Str) (host command : Str) : ProvM Str :=
  fun s =>
    (match ssh host command with
      | .ok out => .ok out
      | .error e => .error (.msg (sshWrapError e)),
     { s with events := s.events ++ [Event.sshRun host command] })

def adminKubectl : Str := ("kubectl --kubeconfig=/etc/kubernetes/admin.conf ".data)

/-- The read-only node-listing query of the administrator's `listNodes`
(abstract.ts lines 246-249). -/
def getNodesCmd (role : Str) : Str :=
  adminKubectl ++ ("get nodes -l node-role.kubernetes.io/".data) ++ role ++
    (" -o=jsonpath=\x27\x7b.items[*].status.addresses[*].address\x7d\x27".data)

def drainCmd (name : Str) : Str :=
  adminKubectl ++ ("drain ".data) ++ name ++
    (" --ignore-daemonsets --delete-emptydir-data --force".data)

def deleteNodeCmd (name : Str) : Str :=
  adminKubectl ++ ("delete node ".data) ++ name

def kubeadmResetCmd : Str := ("kubeadm reset -f".data)

def cleanupFilesCmd : Str :=
  ("rm -rf /etc/kubernetes /var/lib/kubelet /var/lib/etcd /etc/cni/net.d $HOME/.kube/config".data)

/-- The first loop of the administrator's `listNodes` (abstract.ts lines
244-256): ask each provisioner node in turn for the cluster's node addresses,
keeping the first successful answer split on spaces; every failure is caught
and the next node is tried; `nodeIps` stays `[]` when no node answers. -/
def scanNodeIps (ssh : Str → Str → Except Str Str) (role : Str) :
    List Node → ProvM (List Str)
  | [] => pure []
  | n :: rest =>
      tryCatchP
        (adminSSH ssh n.publicIp (getNodesCmd role) >>= fun out =>
          pure (strSplitSpace out))
        (fun _ => scanNodeIps ssh role rest)

/-- The administrator's `listNodes` (abstract.ts lines 238-266): obtain the
cluster's node addresses over SSH, throw if none were obtained, then keep the
provisioner nodes whose public IP is among them. -/
def adminListNodes (ssh : Str → Str → Except Str Str) (clusterId role : Str) :
    ProvM (List Node) := do
  let s ← getDir
  let nodeIps ← scanNodeIps ssh role (listNodes s clusterId 1)
  if nodeIps.length = 0 then
    throwP (if role.isEmpty then ("Cannot find any nodes".data)
      else ("Cannot find any ".data) ++ role ++ (" nodes".data))
  else do
    let s2 ← getDir
    pure ((listNodes s2 clusterId 1).filter
      (fun node => nodeIps.any (fun ip => ip == node.publicIp)))

/-- `findAsync` (utils.ts lines 463-472) over a generator modelled as the
action producing its full yield sequence: first item satisfying the condition,
else the not-found error; an error raised by the generator propagates. -/
def findAsyncP (gen : ProvM (List α)) (condition : α → Bool) (notFoundError : Str) :
    ProvM α := do
  let items ← gen
  match items.find? condition with
  | some item => pure item
  | none => throwP notFoundError

/-- `removeNode` (abstract.ts lines 193-233): locate the node, locate a
coordinator control-plane node with a different public IP, then drain, delete
the Kubernetes node object, reset the machine (failures ignored), and
deprovision. -/
def removeNode (ssh : Str → Str → Except Str Str) (clusterId nodeId : Str) :
    ProvM Unit := do
  let nodeToRemove ← findAsyncP (getDir >>= fun s => pure (listNodes s clusterId 1))
    (fun node => node.id == nodeId)
    (("Node ".data) ++ nodeId ++ (" not found in cluster ".data) ++ clusterId)
  let controlPlaneNode ← findAsyncP
    (adminListNodes ssh clusterId ("control-plane".data))
    (fun controlPlaneNode => controlPlaneNode.publicIp != nodeToRemove.publicIp)
    ("Cannot remove the only control plane node, delete the cluster instead".data)
  let _ ← adminSSH ssh controlPlaneNode.publicIp (drainCmd nodeToRemove.name)
  let _ ← adminSSH ssh controlPlaneNode.publicIp (deleteNodeCmd nodeToRemove.name)
  tryIgnore (adminSSH ssh nodeToRemove.publicIp kubeadmResetCmd >>= fun _ =>
    adminSSH ssh nodeToRemove.publicIp cleanupFilesCmd)
  deprovisionNode clusterId nodeToRemove.id

/-- A step that mutates nothing: the directory is untouched and the ghost
trace grows only by read-only node-listing queries (no drain, no node-object
deletion, no reset, no deprovisioning action). -/
def ReadOnlyStep (role : Str) (s s' : DirSt) : Prop :=
  s'.instances = s.instances ∧ s'.tags = s.tags ∧
  s'.tagAssignments = s.tagAssignments ∧ s'.secrets = s.secrets ∧
  s'.nextId = s.nextId ∧
  ∃ d, s'.events = s.events ++ d ∧
    ∀ ev ∈ d, ∃ host, ev = Event.sshRun host (getNodesCmd role)

theorem readOnlyStep_rfl (role : Str) (s : DirSt) : ReadOnlyStep role s s :=
  ⟨rfl, rfl, rfl, rfl, rfl, [], by simp, by simp⟩

theorem readOnlyStep_trans {role : Str} {s₁ s₂ s₃ : DirSt}
    (h₁ : ReadOnlyStep role s₁ s₂) (h₂ : ReadOnlyStep role s₂ s₃) :
    ReadOnlyStep role s₁ s₃ := by
  obtain ⟨hi₁, ht₁, ha₁, hs₁, hn₁, d₁, he₁, hm₁⟩ := h₁
  obtain ⟨hi₂, ht₂, ha₂, hs₂, hn₂, d₂, he₂, hm₂⟩ := h₂
  refine ⟨hi₂.trans hi₁, ht₂.trans ht₁, ha₂.trans ha₁, hs₂.trans hs₁, hn₂.trans hn₁,
    d₁ ++ d₂, ?_, ?_⟩
  · rw [he₂, he₁, List.append_assoc]
  · intro ev hev
    rcases List.mem_append.mp hev with h | h
    · exact hm₁ ev h
    · exact hm₂ ev h

theorem readOnlyStep_single (role : Str) (s : DirSt) (host : Str) :
    ReadOnlyStep role s
      { s with events := s.events ++ [Event.sshRun host (getNodesCmd role)] } := by
  refine ⟨rfl, rfl, rfl, rfl, rfl, [Event.sshRun host (getNodesCmd role)], rfl, ?_⟩
  intro ev hev
  simp only [List.mem_singleton] at hev
  exact ⟨host, hev⟩

theorem scanNodeIps_spec (ssh : Str → Str → Except Str Str) (role : Str) :
    ∀ (nodes : List Node) (s : DirSt), ∃ ips s',
      scanNodeIps ssh role nodes s = (.ok ips, s') ∧ ReadOnlyStep role s s' ∧
      (ips = [] ∨ ∃ host out, ssh host (getNodesCmd role) = Except.ok out ∧
        ips = strSplitSpace out) := by
  intro nodes
  induction nodes with
  | nil => intro s; exact ⟨[], s, rfl, readOnlyStep_rfl role s, Or.inl rfl⟩
  | cons n rest ih =>
    intro s
    cases hssh : ssh n.publicIp (getNodesCmd role) with
    | ok out =>
      refine ⟨strSplitSpace out,
        { s with events := s.events ++ [Event.sshRun n.publicIp (getNodesCmd role)] },
        ?_, readOnlyStep_single role s n.publicIp,
        Or.inr ⟨n.publicIp, out, hssh, rfl⟩⟩
      have ha : adminSSH ssh n.publicIp (getNodesCmd role) s =
          (.ok out,
           { s with events := s.events ++ [Event.sshRun n.publicIp (getNodesCmd role)] }) := by
        simp only [adminSSH, hssh]
      have hx : (adminSSH ssh n.publicIp (getNodesCmd role) >>= fun out =>
          pure (strSplitSpace out)) s =
          (.ok (strSplitSpace out),
           { s with events := s.events ++ [Event.sshRun n.publicIp (getNodesCmd role)] }) := by
        rw [bind_apply_ok ha]
        rfl
      simp only [scanNodeIps, tryCatchP, hx]
    | error e =>
      obtain ⟨ips, s', hrun, hro, hsrc⟩ :=
        ih { s with events := s.events ++ [Event.sshRun n.publicIp (getNodesCmd role)] }
      refine ⟨ips, s', ?_, readOnlyStep_trans (readOnlyStep_single role s n.publicIp) hro,
        hsrc⟩
      have ha : adminSSH ssh n.publicIp (getNodesCmd role) s =
          (.error (.msg (sshWrapError e)),
           { s with events := s.events ++ [Event.sshRun n.publicIp (getNodesCmd role)] }) := by
        simp only [adminSSH, hssh]
      have hx : (adminSSH ssh n.publicIp (getNodesCmd role) >>= fun out =>
          pure (strSplitSpace out)) s =
          (.error (.msg (sshWrapError e)),
           { s with events := s.events ++ [Event.sshRun n.publicIp (getNodesCmd role)] }) :=
        bind_apply_error ha _
      simp only [scanNodeIps, tryCatchP, hx]
      exact hrun

theorem listNodes_congr {s s' : DirSt} (h : s'.instances = s.instances)
    (clusterId : Str) (pageSize : Nat) :
    listNodes s' clusterId pageSize = listNodes s clusterId pageSize := by
  simp only [listNodes, h]

theorem adminListNodes_spec (ssh : Str → Str → Except Str Str)
    (clusterId role : Str) (s : DirSt) :
    ∃ r s', adminListNodes ssh clusterId role s = (r, s') ∧ ReadOnlyStep role s s' ∧
      ∀ l, r = .ok l → ∃ host out, ssh host (getNodesCmd role) = Except.ok out ∧
        ∀ n ∈ l, n ∈ listNodes s clusterId 1 ∧
          (strSplitSpace out).any (fun ip => ip == n.publicIp) = true := by
  obtain ⟨ips, s₁, hscan, hro, hsrc⟩ :=
    scanNodeIps_spec ssh role (listNodes s clusterId 1) s
  have hg : (getDir : ProvM DirSt) s = (.ok s, s) := rfl
  by_cases hlen : ips.length = 0
  · refine ⟨.error (.msg (if role.isEmpty then ("Cannot find any nodes".data)
      else ("Cannot find any ".data) ++ role ++ (" nodes".data))), s₁, ?_, hro, ?_⟩
    · unfold adminListNodes
      rw [bind_apply_ok hg, bind_apply_ok hscan, if_pos hlen]
      rfl
    · intro l hl
      cases hl
  · refine ⟨.ok ((listNodes s₁ clusterId 1).filter
        (fun node => ips.any (fun ip => ip == node.publicIp))), s₁, ?_, hro, ?_⟩
    · unfold adminListNodes
      rw [bind_apply_ok hg, bind_apply_ok hscan, if_neg hlen]
      have hg1 : (getDir : ProvM DirSt) s₁ = (.ok s₁, s₁) := rfl
      rw [bind_apply_ok hg1]
      rfl
    · intro l hl
      cases hl
      rcases hsrc with h0 | ⟨host, out, hssh, hips⟩
      · exact absurd (by rw [h0]; rfl) hlen
      · refine ⟨host, out, hssh, ?_⟩
        intro n hn
        have hmf := List.mem_filter.mp hn
        constructor
        · rw [listNodes_congr hro.1 clusterId 1] at hmf
          exact hmf.1
        · rw [← hips]
          exact hmf.2

/-- C3: when the node being removed is found in the cluster and it is the
cluster's sole control-plane node — whatever control-plane address listing the
cluster answers over SSH, every cluster node at one of those addresses shares
the removed node's public IP (worker nodes at other addresses may exist) —
`removeNode` fails with an error and mutates nothing: the directory is
unchanged and the only actions performed are read-only node-listing queries —
no drain, no node-object deletion, no reset, no deprovisioning. -/
theorem claim_C3 (ssh : Str → Str → Except Str Str) (clusterId nodeId : Str)
    (s : DirSt) (target : Node)
    (hfound : (listNodes s clusterId 1).find? (fun node => node.id == nodeId) =
      some target)
    (hsole : ∀ host out, ssh host (getNodesCmd ("control-plane".data)) = Except.ok out →
        ∀ n ∈ listNodes s clusterId 1,
          (strSplitSpace out).any (fun ip => ip == n.publicIp) = true →
          n.publicIp = target.publicIp) :
    (∃ e, (removeNode ssh clusterId nodeId s).1 = Except.error e) ∧
    ReadOnlyStep ("control-plane".data) s ((removeNode ssh clusterId nodeId s).2) := by
  have h1 : ((getDir >>= fun s0 => pure (listNodes s0 clusterId 1)) : ProvM (List Node)) s =
      (.ok (listNodes s clusterId 1), s) := rfl
  have hfa1 : findAsyncP (getDir >>= fun s0 => pure (listNodes s0 clusterId 1))
      (fun node => node.id == nodeId)
      (("Node ".data) ++ nodeId ++ (" not found in cluster ".data) ++ clusterId) s =
      (.ok target, s) := by
    unfold findAsyncP
    rw [bind_apply_ok h1]
    simp only [hfound]
    rfl
  obtain ⟨r2, s₂, hadm, hro2, hmem2⟩ :=
    adminListNodes_spec ssh clusterId ("control-plane".data) s
  cases r2 with
  | error e =>
    have hfa2 : findAsyncP (adminListNodes ssh clusterId ("control-plane".data))
        (fun controlPlaneNode => controlPlaneNode.publicIp != target.publicIp)
        ("Cannot remove the only control plane node, delete the cluster instead".data) s =
        (.error e, s₂) := by
      unfold findAsyncP
      exact bind_apply_error hadm _
    have hrm : removeNode ssh clusterId nodeId s = (.error e, s₂) := by
      unfold removeNode
      rw [bind_apply_ok hfa1, bind_apply_error hfa2]
    exact ⟨⟨e, by rw [hrm]⟩, by rw [hrm]; exact hro2⟩
  | ok l =>
    obtain ⟨host, out, hssh, hns⟩ := hmem2 l rfl
    have hfind : l.find? (fun controlPlaneNode =>
        controlPlaneNode.publicIp != target.publicIp) = none := by
      rw [List.find?_eq_none]
      intro x hx
      obtain ⟨hxmem, hxip⟩ := hns x hx
      simp [hsole host out hssh x hxmem hxip]
    have hfa2 : findAsyncP (adminListNodes ssh clusterId ("control-plane".data))
        (fun controlPlaneNode => controlPlaneNode.publicIp != target.publicIp)
        ("Cannot remove the only control plane node, delete the cluster instead".data) s =
        (.error (.msg
          ("Cannot remove the only control plane node, delete the cluster instead".data)),
         s₂) := by
      unfold findAsyncP
      rw [bind_apply_ok hadm]
      simp only [hfind]
      rfl
    have hrm : removeNode ssh clusterId nodeId s =
        (.error (.msg
          ("Cannot remove the only control plane node, delete the cluster instead".data)),
         s₂) := by
      unfold removeNode
      rw [bind_apply_ok hfa1, bind_apply_error hfa2]
    exact ⟨⟨_, by rw [hrm]⟩, by rw [hrm]; exact hro2⟩

/-! ### Two concurrent `ensureInstance` claimants

`ensureInstance` (contabo.ts lines 261-372) runs as a sequence of awaited
provider calls; between any two awaits another concurrent caller can run.  The
found-candidate path decomposes into three phases separated by awaits: the
candidate scan, the ownership display-name write, and the re-read (plus start
when not running) whose result is returned.  The decomposition is proved equal
to `ensureInstance` below (`ensureInstance_eq_phases`); the scheduler
interleaves the phases of two callers atomically, which renders the real
schedule in which each caller's scan completes before either caller writes. -/

def ensurePhase1 (opts : EnsureInstanceOptions) : ProvM (Option ContaboInstance) :=
  paginateFindInstance (ensureInstanceScanCondition opts) 100

def ensurePhase2 (opts : EnsureInstanceOptions) (inst0 : ContaboInstance) : ProvM Unit :=
  setInstanceDisplayName inst0.instanceId (opts.displayName inst0.instanceId)

def ensurePhase3 (inst0 : ContaboInstance) : ProvM ContaboInstance :=
  getInstance inst0.instanceId >>= fun inst1 =>
    if inst1.status ≠ ("running".data) then
      startInstance inst1.instanceId >>= fun _ => getInstance inst1.instanceId
    else pure inst1

/-- On the found-candidate path the three phases compose to exactly
`ensureInstance`. -/
theorem ensureInstance_eq_phases (opts : EnsureInstanceOptions) (s s1 : DirSt)
    (i : ContaboInstance) (h1 : ensurePhase1 opts s = (.ok (some i), s1)) :
    ensureInstance opts s = (ensurePhase2 opts i >>= fun _ => ensurePhase3 i) s1 := by
  unfold ensurePhase1 at h1
  unfold ensureInstance
  rw [bind_apply_ok h1]
  rfl

/-- A claimant's control point: about to scan, about to write its ownership
marker on the scanned candidate, about to re-read and return, or finished. -/
inductive ClaimPhase where
  | scan
  | write (inst0 : ContaboInstance)
  | reread (inst0 : ContaboInstance)
  | done (res : Except PErr ContaboInstance)

structure ClaimProc where
  opts : EnsureInstanceOptions
  phase : ClaimPhase

/-- One atomic phase of a claimant against the shared directory, in the
`provisioning = "manual"` configuration that `provisionNode` always uses (a
failed scan throws the capacity error instead of creating an instance). -/
def claimStep (p : ClaimProc) (s : DirSt) : ClaimProc × DirSt :=
  match p.phase with
  | ClaimPhase.scan =>
      (match ensurePhase1 p.opts s with
        | (.ok (some i), s') => ({ p with phase := ClaimPhase.write i }, s')
        | (.ok none, s') =>
            ({ p with phase := ClaimPhase.done (.error (.msg
                ("Automatic provisioning disabled, no available instances found, please provision instances in Contabo first".data))) },
             s')
        | (.error e, s') => ({ p with phase := ClaimPhase.done (.error e) }, s'))
  | ClaimPhase.write i =>
      (match ensurePhase2 p.opts i s with
        | (.ok _, s') => ({ p with phase := ClaimPhase.reread i }, s')
        | (.error e, s') => ({ p with phase := ClaimPhase.done (.error e) }, s'))
  | ClaimPhase.reread i =>
      (match ensurePhase3 i s with
        | (.ok inst1, s') => ({ p with phase := ClaimPhase.done (.ok inst1) }, s')
        | (.error e, s') => ({ p with phase := ClaimPhase.done (.error e) }, s'))
  | ClaimPhase.done _ => (p, s)

/-- Run two claimants under a schedule: `true` steps claimant A, `false`
steps claimant B. -/
def runSchedule : List Bool → ClaimProc × ClaimProc × DirSt → ClaimProc × ClaimProc × DirSt
  | [], st => st
  | b :: rest, (pA, pB, s) =>
      if b then
        runSchedule rest ((claimStep pA s).1, pB, (claimStep pA s).2)
      else
        runSchedule rest (pA, (claimStep pB s).1, (claimStep pB s).2)

/-! ### Concrete directory states used as evaluation inputs -/

/-- A single unclaimed, running instance of the required capacity class, with
the correct image and the cluster ssh key already injected. -/
def poolInstance : ContaboInstance :=
  { instanceId := 1, displayName := [], productId := ("V78".data),
    imageId := ubuntuImageId, sshKeys := [7], status := ("running".data),
    cancelDate := [], errorMessage := [], dataCenter := [], name := ("n1".data),
    ipv4 := ("10.0.0.1".data) }

/-- The ssh-key secret for cluster "ab". -/
def poolKey : ContaboSecret :=
  { secretId := 7, secretType := ("ssh".data), name := ("cluster=ab".data),
    value := ("pk".data) }

/-- Directory with one unclaimed instance, used to run `provisionNode`. -/
def poolSt : DirSt :=
  { instances := [poolInstance], tags := [], tagAssignments := [], secrets := [poolKey],
    nextId := 100, events := [] }

/-- Directory in which tag 5, named for cluster c1, is already assigned to
instance 1. -/
def taggedSt : DirSt :=
  { instances := [], tags := [{ tagId := 5, name := ("cluster=c1".data) }],
    tagAssignments :=
      [{ tagId := 5, resourceType := ("instance".data), resourceId := ("1".data) }],
    secrets := [], nextId := 100, events := [] }

/-- Directory whose single instance (id 1) is claimed by cluster "b". -/
def foreignSt : DirSt :=
  { instances := [{ poolInstance with displayName := ("1 cluster=b".data) }],
    tags := [], tagAssignments := [], secrets := [], nextId := 100, events := [] }

/-- The directory state after `provisionNode("ab")` succeeds on `poolSt`. -/
def c7FinalSt : DirSt :=
  { instances := [{ poolInstance with displayName := ("1 cluster=ab".data) }],
    tags := [{ tagId := 100, name := ("cluster=ab".data) }],
    tagAssignments :=
      [{ tagId := 100, resourceType := ("instance".data), resourceId := ("1".data) }],
    secrets := [poolKey], nextId := 101,
    events :=
      [Event.setName 1 ("1 cluster=ab".data), Event.tagCreated 100,
       Event.asgCreated 100 ("1".data), Event.checkPassed 1,
       Event.sshRun ("10.0.0.1".data) ("sudo killall apt-get || true".data)] }

/-- C7 counterexample to the unamended claim: a node provisioned for cluster
"ab" also appears in `listNodes` for the different cluster "a", because the
display name "1 cluster=ab" contains the substring "cluster=a". -/
theorem claim_C7_counterexample :
    (("a".data : Str) ≠ ("ab".data : Str)) ∧
    provisionNode ("ab".data) ("pk".data) (fun _ _ => none) poolSt =
      (.ok { clusterId := ("ab".data), id := ("1".data), name := ("n1".data),
             publicIp := ("10.0.0.1".data) }, c7FinalSt) ∧
    (("1".data : Str)) ∈ (listNodes c7FinalSt ("a".data) 100).map (fun n => n.id) := by
  exact ⟨by decide, rfl, by decide⟩

theorem claim_C2_witness :
    poolSt.events = [] ∧
    ∃ e, (provisionNode ("ab".data) ("pk".data)
      (fun _ _ => some { ctype := ("ssh_node".data), peerIp := none }) poolSt).1 =
        .error e := by
  refine ⟨rfl, ?_⟩
  have h := claim_C2 ("ab".data) ("pk".data)
    (fun _ _ => some { ctype := ("ssh_node".data), peerIp := none }) poolSt rfl
  exact h.2.2.2 (fun _ _ => rfl)

theorem claim_C7_witness :
    ((poolSt.instances.map (fun i => i.instanceId)).Nodup) ∧
    ('=' ∉ ("ab".data : Str)) ∧ (¬ (("cd".data : Str) <+: ("ab".data : Str))) ∧
    (({ clusterId := ("ab".data), id := ("1".data), name := ("n1".data),
        publicIp := ("10.0.0.1".data) } : Node).id ∈
      (listNodes c7FinalSt ("ab".data) 100).map (fun n => n.id)) ∧
    (({ clusterId := ("ab".data), id := ("1".data), name := ("n1".data),
        publicIp := ("10.0.0.1".data) } : Node).id ∉
      (listNodes c7FinalSt ("cd".data) 100).map (fun n => n.id)) := by
  have h := claim_C7 ("ab".data) ("cd".data) ("pk".data) (fun _ _ => none) poolSt
    { clusterId := ("ab".data), id := ("1".data), name := ("n1".data),
      publicIp := ("10.0.0.1".data) } c7FinalSt
    (by decide) (by decide) (by decide) rfl
  exact ⟨by decide, by decide, by decide, h.1, h.2⟩

/-- C5 (divergence witness): re-assigning the already-assigned cluster tag to
the same instance is not a no-op — `assignTag` finds the existing assignment
and throws, contradicting the requirement that re-assignment be idempotent. -/
theorem claim_C5_counterexample :
    (assignTag ("cluster=c1".data) ("instance".data) ("1".data) taggedSt).1 =
      .error (.msg ("Tag cluster=c1 already assigned to resource 1 of type instance".data)) := by
  rfl

/-- C6 (divergence witness): `getNode` for cluster "a" on an instance whose
display name carries cluster "b"'s membership marker (and not cluster "a"'s)
does not fail with NotFound — it returns a `Node` stamped with the requested
cluster id. -/
theorem claim_C6_counterexample :
    (getNode ("a".data) ("1".data) foreignSt).1 =
      .ok { clusterId := ("a".data), id := ("1".data), name := ("n1".data),
            publicIp := ("10.0.0.1".data) } ∧
    strIncludes (("1 cluster=b".data) : Str) (clusterMarker ("a".data)) = false := by
  exact ⟨rfl, by decide⟩

/-- A worker node of cluster "ab" at a different address than its control
plane. -/
def workerInstance : ContaboInstance :=
  { instanceId := 2, displayName := ("2 cluster=ab".data), productId := ("V78".data),
    imageId := ubuntuImageId, sshKeys := [7], status := ("running".data),
    cancelDate := [], errorMessage := [], dataCenter := [], name := ("n2".data),
    ipv4 := ("10.0.0.2".data) }

/-- Cluster "ab" with instance 1 as its sole control-plane node (at 10.0.0.1)
and a worker node (instance 2) at 10.0.0.2; the cluster's control-plane
address listing answers "10.0.0.1" only. -/
def soleCpSt : DirSt :=
  { instances := [{ poolInstance with displayName := ("1 cluster=ab".data) },
      workerInstance],
    tags := [], tagAssignments := [], secrets := [poolKey], nextId := 100, events := [] }

theorem claim_C3_witness :
    ((listNodes soleCpSt ("ab".data) 1).find?
        (fun node => node.id == ("1".data)) =
      some { clusterId := ("ab".data), id := ("1".data), name := ("n1".data),
             publicIp := ("10.0.0.1".data) }) ∧
    (∀ (host out : Str), (Except.ok ("10.0.0.1".data) : Except Str Str) = Except.ok out →
        ∀ n ∈ listNodes soleCpSt ("ab".data) 1,
          (strSplitSpace out).any (fun ip => ip == n.publicIp) = true →
          n.publicIp = ("10.0.0.1".data)) ∧
    ∃ e, (removeNode (fun _ _ => Except.ok ("10.0.0.1".data)) ("ab".data) ("1".data)
        soleCpSt).1 = Except.error e := by
  have hs : ∀ (host out : Str),
      (Except.ok ("10.0.0.1".data) : Except Str Str) = Except.ok out →
      ∀ n ∈ listNodes soleCpSt ("ab".data) 1,
        (strSplitSpace out).any (fun ip => ip == n.publicIp) = true →
        n.publicIp = ("10.0.0.1".data) := by
    intro host out hok
    injection hok with h
    subst h
    decide
  refine ⟨by decide, hs, ?_⟩
  exact (claim_C3 (fun _ _ => Except.ok ("10.0.0.1".data)) ("ab".data) ("1".data)
    soleCpSt
    { clusterId := ("ab".data), id := ("1".data), name := ("n1".data),
      publicIp := ("10.0.0.1".data) } (by decide) hs).1

/-- The `ensureInstance` options `provisionNode(clusterId)` passes
(contabo.ts lines 33-39) with the cluster key already ensured as key 7. -/
def raceOpts (clusterId : Str) : EnsureInstanceOptions :=
  { provisioning := ("manual".data), displayName := provisionDisplayName clusterId,
    sshKeys := [7], productId := ("V78".data) }

def raceProcA : ClaimProc := { opts := raceOpts ("aaaa".data), phase := ClaimPhase.scan }

def raceProcB : ClaimProc := { opts := raceOpts ("bbbb".data), phase := ClaimPhase.scan }

/-- Both claimants scan, then both write, then both re-read and return. -/
def raceRun : ClaimProc × ClaimProc × DirSt :=
  runSchedule [true, false, true, false, true, false] (raceProcA, raceProcB, poolSt)

/-- C1 counterexample: two concurrent claimants for clusters "aaaa" and "bbbb"
race on the single unclaimed instance; under the scan-scan-write-write
interleaving both scans select instance 1, both ownership writes go through,
and BOTH callers return instance 1 successfully — claimant A even observes
claimant B's marker "1 cluster=bbbb" in its re-read yet still returns the
instance, because `ensureInstance` never compares the re-read display name
with the name it wrote and has no fallback to a different candidate.  This
refutes the claimed exactly-one-winner resolution with loser detection. -/
theorem claim_C1_counterexample :
    raceRun.1.phase =
      ClaimPhase.done (.ok { poolInstance with displayName := ("1 cluster=bbbb".data) }) ∧
    raceRun.2.1.phase =
      ClaimPhase.done (.ok { poolInstance with displayName := ("1 cluster=bbbb".data) }) ∧
    provisionDisplayName ("aaaa".data) 1 ≠ provisionDisplayName ("bbbb".data) 1 ∧
    ({ poolInstance with displayName := ("1 cluster=bbbb".data) }).displayName =
      provisionDisplayName ("bbbb".data) 1 := by
  exact ⟨rfl, rfl, by decide, by decide⟩

end HaLean
